import Mathlib

/-!
Verification of the donor-intelligence core: the donor-name matching engine
(`backend/services/donor_profile_matcher.py`) and the tiered web-search
relevance filter (`backend/utils/web_scraper.py`).

Strings are modelled as `List Char` (Python `str`), floats as `ℚ`, and the
external collaborators (Cosmos candidate store, DuckDuckGo search provider,
page fetcher) as explicit parameters.  Python regular-expression passes are
embedded as equivalent structural scanners over character lists.
-/

/-- Convert a Lean string literal to the `List Char` representation used
throughout the development. -/
def chars (s : String) : List Char := s.data

/-- Python's whitespace set for `str.strip` / `\s` (ASCII part). -/
def isPySpace (c : Char) : Bool :=
  c == ' ' || c == '\t' || c == '\n' || c == '\x0d' || c == '\x0b' || c == '\x0c'

/-- Python `str.strip()`: drop whitespace from both ends. -/
def pyStrip (s : List Char) : List Char :=
  ((s.dropWhile isPySpace).reverse.dropWhile isPySpace).reverse

/-- Characters kept by the normalisation regex `[^a-z0-9]+` (after lowering). -/
def isAZ09 (c : Char) : Bool :=
  ('a' ≤ c && c ≤ 'z') || ('0' ≤ c && c ≤ '9')

/-- One pass of `re.sub(r"[^a-z0-9]+", " ", s)`: every maximal run of
characters outside `[a-z0-9]` becomes a single space.  The boolean flag
records whether the previous character was part of such a run. -/
def subNonAlnum : Bool → List Char → List Char
  | _, [] => []
  | inRun, c :: rest =>
    if isAZ09 c then c :: subNonAlnum false rest
    else if inRun then subNonAlnum true rest
    else ' ' :: subNonAlnum true rest

/-- `_norm` of `donor_profile_matcher.py`:
`re.sub(r"[^a-z0-9]+", " ", (s or "").lower()).strip()`. -/
def _norm (s : List Char) : List Char :=
  pyStrip (subNonAlnum false (s.map Char.toLower))

/-- `re.split` on runs of separator characters, restricted to the nonempty
pieces (the callers in the source filter out falsy pieces immediately, so
empty pieces never survive).  The accumulator holds the current word,
reversed. -/
def splitRunsAux (p : Char → Bool) (cur : List Char) : List Char → List (List Char)
  | [] => if cur.isEmpty then [] else [cur.reverse]
  | c :: rest =>
    if p c then
      if cur.isEmpty then splitRunsAux p [] rest
      else cur.reverse :: splitRunsAux p [] rest
    else splitRunsAux p (c :: cur) rest

/-- Nonempty pieces of a split on runs of separators. -/
def splitRuns (p : Char → Bool) (s : List Char) : List (List Char) := splitRunsAux p [] s

/-- Nonempty whitespace-separated words of a string (`re.split(r"\s+", s)`
with falsy pieces dropped). -/
def splitWs (s : List Char) : List (List Char) := splitRuns isPySpace s

/-- The STOPWORDS set shared by both source modules. -/
def STOPWORDS : List (List Char) :=
  [chars "and", chars "of", chars "for", chars "the", chars "a", chars "an", chars "&",
   chars "agency", chars "foundation", chars "fund", chars "bank", chars "ministry",
   chars "department", chars "international", chars "cooperation", chars "development",
   chars "affairs", chars "programme", chars "program", chars "office",
   chars "directorate", chars "general", chars "state", chars "government",
   chars "governments"]

/-- Environment-style configuration of the matcher (all values default-set as
in the source's `os.getenv` reads). -/
structure MatcherConfig where
  lookupEnable : Bool
  minScore : ℚ
  tokenLimit : Nat
  maxChars : Int
  includeFields : List (List Char)
  excludeFields : List (List Char)
deriving Repr

/-- The source's default environment: enabled, `MIN_SCORE 0.65`,
`TOKEN_LIMIT 4`, `MAX_CHARS 8000`, empty include/exclude lists. -/
def defaultMatcherConfig : MatcherConfig :=
  ⟨true, 13/20, 4, 8000, [], []⟩

/-- Python `xs or ys` on lists (empty list is falsy). -/
def pyListOr {α : Type} (xs ys : List α) : List α :=
  if xs.isEmpty then ys else xs

/-- `_tokens`: significant tokens of the normalised name, capped at the
configured limit; if that list is empty, fall back to the first two raw
tokens. -/
def _tokens (cfg : MatcherConfig) (name : List Char) : List (List Char) :=
  let allToks := splitWs (_norm name)
  let toks := allToks.filter (fun t => !STOPWORDS.contains t)
  pyListOr (toks.take cfg.tokenLimit) (allToks.take 2)

/-- `_jaccard`: Jaccard similarity of the two token sets (0 when either set
is empty). -/
def _jaccard (a b : List (List Char)) : ℚ :=
  let sa := a.toFinset
  let sb := b.toFinset
  if sa = ∅ ∨ sb = ∅ then 0
  else ((sa ∩ sb).card : ℚ) / ((sa ∪ sb).card : ℚ)

/-! ### `difflib.SequenceMatcher` (CPython), as used by `_ratio`

`_ratio` calls `difflib.SequenceMatcher(None, x, y).ratio()`.  `ratio` is
`2*M/T` where `T` is the total length and `M` the total size of the matching
blocks found by recursively taking `find_longest_match` blocks.  With
`isjunk=None` the junk set is empty; the autojunk heuristic marks as
"popular" every element occurring more than `len(b)//100 + 1` times when
`len(b) >= 200`, and the inner matching loop skips popular elements of `b`
(the extension loops do not). -/

/-- Autojunk popularity of a character of `b`. -/
def popularB (b : List Char) (c : Char) : Bool :=
  decide (200 ≤ b.length) && decide (b.length / 100 + 1 < b.count c)

/-- Guard of one diagonal step of `find_longest_match`'s inner loop: indices
in window, characters equal, and the `b`-side character not popular. -/
def runCond (a b : List Char) (pop : Char → Bool) (alo ahi blo bhi i j : Nat) : Prop :=
  alo ≤ i ∧ i < ahi ∧ blo ≤ j ∧ j < bhi ∧ i < a.length ∧ j < b.length ∧
    a.getD i ' ' = b.getD j ' ' ∧ pop (b.getD j ' ') = false

instance runCond.instDecidable (a b : List Char) (pop : Char → Bool)
    (alo ahi blo bhi i j : Nat) : Decidable (runCond a b pop alo ahi blo bhi i j) := by
  unfold runCond; infer_instance

/-- Length of the matching diagonal run ending at `(i, j)` (the value
`j2len[j]` holds after row `i` of the `find_longest_match` main loop). -/
def runlen (a b : List Char) (pop : Char → Bool) (alo ahi blo bhi : Nat) :
    Nat → Nat → Nat
  | 0, j => if runCond a b pop alo ahi blo bhi 0 j then 1 else 0
  | i+1, j =>
    if runCond a b pop alo ahi blo bhi (i+1) j then
      (if alo < i + 1 ∧ blo < j then runlen a b pop alo ahi blo bhi i (j - 1) else 0) + 1
    else 0

/-- One column step of `find_longest_match`'s main loop: a diagonal run of
size `k` ending at `(i, j)` replaces the best block when it strictly
improves the size; it starts at `(i+1-k, j+1-k)`. -/
def flmColStep (a b : List Char) (pop : Char → Bool) (alo ahi blo bhi i : Nat)
    (st : Nat × Nat × Nat) (j : Nat) : Nat × Nat × Nat :=
  let k := runlen a b pop alo ahi blo bhi i j
  if st.2.2 < k then (i + 1 - k, j + 1 - k, k) else st

/-- One row of the main loop: scan the columns in ascending order. -/
def flmRow (a b : List Char) (pop : Char → Bool) (alo ahi blo bhi : Nat)
    (st : Nat × Nat × Nat) (i : Nat) : Nat × Nat × Nat :=
  (List.range' blo (bhi - blo)).foldl (flmColStep a b pop alo ahi blo bhi i) st

/-- Main double loop of `find_longest_match`: rows `i` ascending, columns
`j` ascending, keeping the first block that strictly improves the best
size. -/
def flmBest (a b : List Char) (pop : Char → Bool) (alo ahi blo bhi : Nat) :
    Nat × Nat × Nat :=
  (List.range' alo (ahi - alo)).foldl (flmRow a b pop alo ahi blo bhi) (alo, blo, 0)

/-- Guard of the leftward extension loops (`p` selects non-junk for the first
pass and junk for the third). -/
def extCondL (a b : List Char) (p : Char → Bool) (alo blo bi bj : Nat) : Prop :=
  alo < bi ∧ blo < bj ∧ p (b.getD (bj - 1) ' ') = true ∧
    a.getD (bi - 1) ' ' = b.getD (bj - 1) ' '

instance extCondL.instDecidable (a b : List Char) (p : Char → Bool)
    (alo blo bi bj : Nat) : Decidable (extCondL a b p alo blo bi bj) := by
  unfold extCondL; infer_instance

/-- Leftward extension: grow the block downwards while the guard holds. -/
def extLeft (a b : List Char) (p : Char → Bool) (alo blo : Nat) :
    Nat → Nat → Nat → Nat × Nat × Nat
  | 0, bj, bs => (0, bj, bs)
  | bi+1, bj, bs =>
    if extCondL a b p alo blo (bi+1) bj then extLeft a b p alo blo bi (bj - 1) (bs + 1)
    else (bi+1, bj, bs)

/-- Guard of the rightward extension loops. -/
def extCondR (a b : List Char) (p : Char → Bool) (ahi bhi bi bj bs : Nat) : Prop :=
  bi + bs < ahi ∧ bj + bs < bhi ∧ p (b.getD (bj + bs) ' ') = true ∧
    a.getD (bi + bs) ' ' = b.getD (bj + bs) ' '

instance extCondR.instDecidable (a b : List Char) (p : Char → Bool)
    (ahi bhi bi bj bs : Nat) : Decidable (extCondR a b p ahi bhi bi bj bs) := by
  unfold extCondR; infer_instance

/-- Rightward extension: grow the block size while the guard holds.  The
first argument bounds the number of iterations; the guard forces
`bi + bs < ahi`, so the loop runs at most `ahi - (bi + bs)` times and the
callers pass exactly that bound, hence it never cuts the loop short. -/
def extRight (a b : List Char) (p : Char → Bool) (ahi bhi bi bj : Nat) :
    Nat → Nat → Nat
  | 0, bs => bs
  | f+1, bs =>
    if extCondR a b p ahi bhi bi bj bs then extRight a b p ahi bhi bi bj f (bs + 1)
    else bs

/-- `find_longest_match(alo, ahi, blo, bhi)`: the main loop followed by the
four extension loops (left/right over non-junk, then left/right over junk). -/
def findLongestMatch (a b : List Char) (pop jnk : Char → Bool)
    (alo ahi blo bhi : Nat) : Nat × Nat × Nat :=
  let s0 := flmBest a b pop alo ahi blo bhi
  let s1 := extLeft a b (fun c => !jnk c) alo blo s0.1 s0.2.1 s0.2.2
  let k2 := extRight a b (fun c => !jnk c) ahi bhi s1.1 s1.2.1
    (ahi - (s1.1 + s1.2.2)) s1.2.2
  let s3 := extLeft a b jnk alo blo s1.1 s1.2.1 k2
  let k4 := extRight a b jnk ahi bhi s3.1 s3.2.1 (ahi - (s3.1 + s3.2.2)) s3.2.2
  (s3.1, s3.2.1, k4)

/-- Total size of the matching blocks of a window: take the longest match,
recurse on both sides.  The fuel argument bounds the recursion depth; every
recursive call shrinks the `a`-window strictly, so `ahi - alo` fuel (as
passed by `matchTotal`) is always enough. -/
def matchTotalAux (a b : List Char) (pop jnk : Char → Bool) :
    Nat → Nat → Nat → Nat → Nat → Nat
  | 0, _, _, _, _ => 0
  | f+1, alo, ahi, blo, bhi =>
    let t := findLongestMatch a b pop jnk alo ahi blo bhi
    if t.2.2 = 0 then 0
    else matchTotalAux a b pop jnk f alo t.1 blo t.2.1 + t.2.2 +
      matchTotalAux a b pop jnk f (t.1 + t.2.2) ahi (t.2.1 + t.2.2) bhi

/-- Sum of the matching-block sizes of `SequenceMatcher(None, a, b)` (junk
set empty, autojunk popularity on `b`). -/
def matchTotal (a b : List Char) : Nat :=
  matchTotalAux a b (popularB b) (fun _ => false) a.length 0 a.length 0 b.length

/-- `SequenceMatcher.ratio()`: `2*M/T`, or `1.0` for two empty sequences. -/
def smRatio (a b : List Char) : ℚ :=
  let t := a.length + b.length
  if t = 0 then 1 else 2 * (matchTotal a b : ℚ) / (t : ℚ)

/-- `_ratio`: sequence ratio of the two normalised names. -/
def _ratio (a b : List Char) : ℚ := smRatio (_norm a) (_norm b)

/-- `_score`: weighted blend `0.7 * ratio + 0.3 * jaccard`. -/
def _score (cfg : MatcherConfig) (query_name candidate_name : List Char) : ℚ :=
  7/10 * _ratio query_name candidate_name +
    3/10 * _jaccard (_tokens cfg query_name) (_tokens cfg candidate_name)

/-! ### Candidate records and the profile-text builder

Candidate records are JSON-like documents from the Cosmos container: ordered
key/value maps whose values are strings, integers, booleans, null, or
(nested) arrays.  (Floating-point field values and nested objects do not
occur in the ingested CSV rows and are not modelled.) -/

inductive Value where
  | vStr : List Char → Value
  | vInt : Int → Value
  | vBool : Bool → Value
  | vNull : Value
  | vList : List Value → Value

/-- A candidate record: field name ↦ value, in document order. -/
abbrev Doc := List (List Char × Value)

mutual

/-- Structural equality of values (Python `==` on the modelled fragment). -/
def valueBeq : Value → Value → Bool
  | .vStr a, .vStr b => a == b
  | .vInt a, .vInt b => a == b
  | .vBool a, .vBool b => a == b
  | .vNull, .vNull => true
  | .vList a, .vList b => valueListBeq a b
  | _, _ => false

def valueListBeq : List Value → List Value → Bool
  | [], [] => true
  | a :: as, b :: bs => valueBeq a b && valueListBeq as bs
  | _, _ => false

end

instance : BEq Value := ⟨valueBeq⟩

/-- Python truthiness of a field value. -/
def pyTruthy : Value → Bool
  | .vStr s => !s.isEmpty
  | .vInt n => !(n == 0)
  | .vBool b => b
  | .vNull => false
  | .vList l => !l.isEmpty

/-- Python `dict.get` on a document (exact key; for a duplicated key the
later entry wins, as in a `dict` built by successive assignment). -/
def dget (doc : Doc) (k : List Char) : Option Value :=
  (doc.reverse.find? (fun kv => kv.1 == k)).map (fun kv => kv.2)

/-- Lower-case a string (Python `str.lower()`; ASCII keys in practice). -/
def lowerAll (s : List Char) : List Char := s.map Char.toLower

/-- `_all_keys_ci`: case-insensitive view `{k.lower(): v}`; on key clashes
the later entry wins (dict-comprehension override). -/
def ciGet (doc : Doc) (k : List Char) : Option Value :=
  (doc.reverse.find? (fun kv => lowerAll kv.1 == k)).map (fun kv => kv.2)

/-- Does `needle` start `hay`? -/
def leadsWith : List Char → List Char → Bool
  | [], _ => true
  | _, [] => false
  | c :: ns, d :: hs => c == d && leadsWith ns hs

/-- Contiguous-substring test (Python `needle in hay`). -/
def hasSub (hay needle : List Char) : Bool :=
  match hay with
  | [] => needle.isEmpty
  | _ :: t => leadsWith needle hay || hasSub t needle

/-- Does `s` end with `suff` (Python `str.endswith`)? -/
def listEndsWith (s suff : List Char) : Bool := leadsWith suff.reverse s.reverse

/-- Join a list of strings with a separator (Python `sep.join`). -/
def joinSep (sep : List Char) : List (List Char) → List Char
  | [] => []
  | [x] => x
  | x :: xs => x ++ sep ++ joinSep sep xs

/-! #### A small JSON reader for `_maybe_list`'s `json.loads` call

`_maybe_list` parses strings that start with `[`.  The reader below covers
the JSON fragment of `Value` (arrays, strings with the standard escapes,
integers, booleans, null); floating-point literals make it fail, which the
caller treats like a `json.loads` exception.  The first argument bounds the
recursion; every recursive call consumes at least one character, so the
`2 * length + 4` budget passed by `pyJsonLoads` never cuts parsing short. -/

/-- JSON insignificant whitespace. -/
def jsonSkipWs (s : List Char) : List Char :=
  s.dropWhile (fun c => c == ' ' || c == '\t' || c == '\n' || c == '\x0d')

/-- Hex digit value, by codepoint range of the digit character. -/
def hexVal (c : Char) : Option Nat :=
  let n := c.toNat
  if 48 ≤ n && n ≤ 57 then some (n - 48)
  else if 97 ≤ n && n ≤ 102 then some (n - 87)
  else if 65 ≤ n && n ≤ 70 then some (n - 55)
  else none

/-- Body of a JSON string after the opening quote: content and remainder. -/
def jsonStrAux : List Char → Option (List Char × List Char)
  | [] => none
  | '"' :: rest => some ([], rest)
  | '\\' :: rest =>
    match rest with
    | '"' :: r => (jsonStrAux r).map (fun p => ('"' :: p.1, p.2))
    | '\\' :: r => (jsonStrAux r).map (fun p => ('\\' :: p.1, p.2))
    | '/' :: r => (jsonStrAux r).map (fun p => ('/' :: p.1, p.2))
    | 'b' :: r => (jsonStrAux r).map (fun p => ('\x08' :: p.1, p.2))
    | 'f' :: r => (jsonStrAux r).map (fun p => ('\x0c' :: p.1, p.2))
    | 'n' :: r => (jsonStrAux r).map (fun p => ('\n' :: p.1, p.2))
    | 'r' :: r => (jsonStrAux r).map (fun p => ('\x0d' :: p.1, p.2))
    | 't' :: r => (jsonStrAux r).map (fun p => ('\t' :: p.1, p.2))
    | 'u' :: h1 :: h2 :: h3 :: h4 :: r =>
      match hexVal h1, hexVal h2, hexVal h3, hexVal h4 with
      | some a, some b, some c, some d =>
        let code := ((a * 16 + b) * 16 + c) * 16 + d
        (jsonStrAux r).map (fun p => (Char.ofNat code :: p.1, p.2))
      | _, _, _, _ => none
    | _ => none
  | c :: rest =>
    if c.toNat < 32 then none
    else (jsonStrAux rest).map (fun p => (c :: p.1, p.2))

/-- JSON non-negative integer literal (leading zeros rejected; a following
`.`, `e` or `E` would start a float literal, which is not modelled and makes
the read fail). -/
def jsonNat (s : List Char) : Option (Nat × List Char) :=
  let ds := s.takeWhile Char.isDigit
  let rest := s.drop ds.length
  if ds.isEmpty then none
  else if 1 < ds.length && ds.headD ' ' == '0' then none
  else
    match rest with
    | '.' :: _ => none
    | 'e' :: _ => none
    | 'E' :: _ => none
    | _ => some (ds.foldl (fun n c => n * 10 + (c.toNat - '0'.toNat)) 0, rest)

/-- JSON reader: `inArr = false` reads one value, `inArr = true` reads the
items of an array up to the closing bracket. -/
def jsonP : Nat → Bool → List Char → Option (Value × List Char)
  | 0, _, _ => none
  | f+1, false, s =>
    match jsonSkipWs s with
    | [] => none
    | '"' :: rest => (jsonStrAux rest).map (fun p => (Value.vStr p.1, p.2))
    | '[' :: rest => jsonP f true (jsonSkipWs rest)
    | 't' :: 'r' :: 'u' :: 'e' :: rest => some (Value.vBool true, rest)
    | 'f' :: 'a' :: 'l' :: 's' :: 'e' :: rest => some (Value.vBool false, rest)
    | 'n' :: 'u' :: 'l' :: 'l' :: rest => some (Value.vNull, rest)
    | '-' :: rest => (jsonNat rest).map (fun p => (Value.vInt (-(p.1 : Int)), p.2))
    | s' => (jsonNat s').map (fun p => (Value.vInt (p.1 : Int), p.2))
  | f+1, true, s =>
    match s with
    | ']' :: rest => some (Value.vList [], rest)
    | s' =>
      match jsonP f false s' with
      | none => none
      | some (v, r) =>
        match jsonSkipWs r with
        | ',' :: r2 =>
          match jsonP f true (jsonSkipWs r2) with
          | some (Value.vList vs, r3) => some (Value.vList (v :: vs), r3)
          | _ => none
        | ']' :: r2 => some (Value.vList [v], r2)
        | _ => none

/-- `json.loads`, on the modelled JSON fragment. -/
def pyJsonLoads (s : List Char) : Option Value :=
  match jsonP (2 * s.length + 4) false s with
  | some (v, r) => if (jsonSkipWs r).isEmpty then some v else none
  | none => none

mutual

/-- Python `str()` of a value (`_maybe_list` applies it to array items). -/
def pyStr : Value → List Char
  | .vStr s => s
  | .vInt n => (toString n).data
  | .vBool b => if b then ("True").data else ("False").data
  | .vNull => ("None").data
  | .vList xs => '[' :: pyReprList xs ++ [']']

/-- Python `repr()` as it appears inside `str(list)`; string quoting is
modelled with plain single quotes (repr's escape refinements do not arise
for the ingested data). -/
def pyRepr : Value → List Char
  | .vStr s => '\'' :: (s ++ ['\''])
  | .vInt n => (toString n).data
  | .vBool b => if b then ("True").data else ("False").data
  | .vNull => ("None").data
  | .vList xs => '[' :: pyReprList xs ++ [']']

def pyReprList : List Value → List Char
  | [] => []
  | [v] => pyRepr v
  | v :: vs => pyRepr v ++ (", ").data ++ pyReprList vs

end

/-- One character of `json.dumps` string output (default `ensure_ascii`:
non-ASCII and control characters become `\uXXXX` escapes). -/
def jsonEscapeChar (c : Char) : List Char :=
  if c == '"' then ('\\' :: ['"'])
  else if c == '\\' then ('\\' :: ['\\'])
  else if c == '\n' then ('\\' :: ['n'])
  else if c == '\t' then ('\\' :: ['t'])
  else if c == '\x0d' then ('\\' :: ['r'])
  else if c == '\x08' then ('\\' :: ['b'])
  else if c == '\x0c' then ('\\' :: ['f'])
  else if c.toNat < 32 || 126 < c.toNat then
    let hx := fun (n : Nat) =>
      if n < 10 then Char.ofNat ('0'.toNat + n) else Char.ofNat ('a'.toNat + n - 10)
    ['\\', 'u', hx (c.toNat / 4096 % 16), hx (c.toNat / 256 % 16),
     hx (c.toNat / 16 % 16), hx (c.toNat % 16)]
  else [c]

mutual

/-- `json.dumps` of a value (default separators `", "`). -/
def pyJsonDumps : Value → List Char
  | .vStr s => '"' :: (s.flatMap jsonEscapeChar ++ ['"'])
  | .vInt n => (toString n).data
  | .vBool b => if b then ("true").data else ("false").data
  | .vNull => ("null").data
  | .vList xs => '[' :: pyJsonDumpsList xs ++ [']']

def pyJsonDumpsList : List Value → List Char
  | [] => []
  | [v] => pyJsonDumps v
  | v :: vs => pyJsonDumps v ++ (", ").data ++ pyJsonDumpsList vs

end

/-- `_maybe_list`: a list value becomes its items as strings; a string value
whose stripped form starts with `[` is JSON-parsed (a failed parse or a
non-list result yields `none`, like the source's exception handler);
anything else yields `none`.  A missing field (`none`) behaves like Python
`None`. -/
def _maybe_list : Option Value → Option (List (List Char))
  | some (.vList xs) => some (xs.map pyStr)
  | some (.vStr s) =>
    if (pyStrip s).headD ' ' == '[' then
      match pyJsonLoads s with
      | some (.vList xs) => some (xs.map pyStr)
      | _ => none
    else none
  | _ => none

/-! #### `_strip_html`: the five regex passes as fuelled scanners

Each scanner consumes at least one input character per step, so `length`
fuel (as passed) never cuts a scan short. -/

/-- After a `<`: match the rest of `(?i)<br\s*/?>` and return the remainder. -/
def brTail : List Char → Option (List Char)
  | b :: r :: rest =>
    if (b == 'b' || b == 'B') && (r == 'r' || r == 'R') then
      match rest.dropWhile isPySpace with
      | '/' :: '>' :: r2 => some r2
      | '>' :: r2 => some r2
      | _ => none
    else none
  | _ => none

/-- `re.sub(r"(?i)<br\s*/?>", "\n", s)`. -/
def stripBrAux : Nat → List Char → List Char
  | 0, s => s
  | f+1, s =>
    match s with
    | [] => []
    | '<' :: rest =>
      match brTail rest with
      | some r => '\n' :: stripBrAux f r
      | none => '<' :: stripBrAux f rest
    | c :: rest => c :: stripBrAux f rest

/-- After a `<`: match the rest of `(?i)</p\s*>` and return the remainder. -/
def pTail : List Char → Option (List Char)
  | sl :: p :: rest =>
    if sl == '/' && (p == 'p' || p == 'P') then
      match rest.dropWhile isPySpace with
      | '>' :: r2 => some r2
      | _ => none
    else none
  | _ => none

/-- `re.sub(r"(?i)</p\s*>", "\n", s)`. -/
def stripClosePAux : Nat → List Char → List Char
  | 0, s => s
  | f+1, s =>
    match s with
    | [] => []
    | '<' :: rest =>
      match pTail rest with
      | some r => '\n' :: stripClosePAux f r
      | none => '<' :: stripClosePAux f rest
    | c :: rest => c :: stripClosePAux f rest

/-- After a `<`: match the rest of `<[^>]+>` (at least one non-`>` character
then `>`) and return the remainder. -/
def tagTail : List Char → Option (List Char)
  | [] => none
  | c :: rest =>
    if c == '>' then none
    else
      match rest.dropWhile (fun d => !(d == '>')) with
      | '>' :: r => some r
      | _ => none

/-- `re.sub(r"<[^>]+>", "", s)`. -/
def stripTagsAux : Nat → List Char → List Char
  | 0, s => s
  | f+1, s =>
    match s with
    | [] => []
    | '<' :: rest =>
      match tagTail rest with
      | some r => stripTagsAux f r
      | none => '<' :: stripTagsAux f rest
    | c :: rest => c :: stripTagsAux f rest

/-- `re.sub(r"\s+\n", "\n", s)`: in every maximal whitespace run that
contains a newline, the part up to (and including) the last newline
collapses to a single newline. -/
def wsNlAux : Nat → List Char → List Char
  | 0, s => s
  | f+1, s =>
    match s with
    | [] => []
    | c :: rest =>
      if isPySpace c then
        let run := (c :: rest).takeWhile isPySpace
        let tail := (c :: rest).dropWhile isPySpace
        (if run.contains '\n' then
          '\n' :: (run.reverse.takeWhile (fun d => !(d == '\n'))).reverse
         else run) ++ wsNlAux f tail
      else c :: wsNlAux f rest

/-- `re.sub(r"\n{3,}", "\n\n", s)`. -/
def collapseNlAux : Nat → List Char → List Char
  | 0, s => s
  | f+1, s =>
    match s with
    | [] => []
    | c :: rest =>
      if c == '\n' then
        let run := (c :: rest).takeWhile (fun d => d == '\n')
        let tail := (c :: rest).dropWhile (fun d => d == '\n')
        (if 3 ≤ run.length then ('\n' :: ['\n']) else run) ++ collapseNlAux f tail
      else c :: collapseNlAux f rest

/-- `_strip_html`: drop `<br>`-style and `</p>` tags (as newlines), remove
remaining tags, tidy whitespace, and strip. -/
def _strip_html (s : List Char) : List Char :=
  if s.isEmpty then []
  else
    let s1 := stripBrAux s.length s
    let s2 := stripClosePAux s1.length s1
    let s3 := stripTagsAux s2.length s2
    let s4 := wsNlAux s3.length s3
    let s5 := collapseNlAux s4.length s4
    pyStrip s5

/-- `_truncate`: keep a string within `n` characters, appending the
truncation marker after the first `max 0 (n-12)` characters otherwise. -/
def _truncate (s : List Char) (n : Int) : List Char :=
  if (s.length : Int) ≤ n then s
  else s.take (max 0 (n - 12)).toNat ++ chars "\n[TRUNCATED]"

/-- `_FRIENDLY_LABELS`. -/
def _FRIENDLY_LABELS : List (List Char × List Char) :=
  [(chars "Donor_Entity_Name", chars "Donor Name"),
   (chars "Donor_Name", chars "Donor Name"),
   (chars "Entity_Name", chars "Donor Name"),
   (chars "parent_entity_if_applicable", chars "Country/Parent"),
   (chars "Country", chars "Country/Parent"),
   (chars "Type_Of_Entity", chars "Type"),
   (chars "Level_Of_Entity", chars "Level"),
   (chars "IOM_Membership_Status", chars "IOM Membership"),
   (chars "Website", chars "Website"),
   (chars "Thematic_Priorities_Related_To_IOM", chars "Thematic Priorities"),
   (chars "Thematic_Priorities_Narrative", chars "Priorities Narrative"),
   (chars "Geographical_Focus", chars "Geographical Focus"),
   (chars "Geographic_Priorities_Narrative", chars "Geographic Narrative"),
   (chars "Donor_Outreach_Instructions", chars "Outreach Guidance"),
   (chars "Proposal_Format", chars "Proposal Format"),
   (chars "Funding_Agreement_Format", chars "Funding Agreement Format"),
   (chars "Budget_Lines_Flexibility", chars "Budget Flexibility"),
   (chars "Reporting_Format", chars "Reporting"),
   (chars "No_Cost_Extensions_Policy", chars "No-Cost Extensions"),
   (chars "Visibility_Logo_Guidelines", chars "Visibility/Logo"),
   (chars "Calls_For_Proposals_Cfp_Website", chars "Calls for Proposals"),
   (chars "Start_Of_Budget_Cycle", chars "Budget Cycle Start"),
   (chars "End_Of_Budget_Cycle", chars "Budget Cycle End"),
   (chars "Additional_Info_Tips_Vis_A_Vis_Fundraising", chars "Additional Fundraising Info"),
   (chars "Organization_Chart", chars "Org Chart"),
   (chars "Templates_Logos_And_Key_Documents", chars "Templates/Logos/Docs"),
   (chars "Modified", chars "Modified"),
   (chars "Modified_By", chars "Modified By"),
   (chars "Approval_Status", chars "Approval Status"),
   (chars "source", chars "Source")]

/-- `_PRIMARY_KEYS`. -/
def _PRIMARY_KEYS : List (List Char) :=
  [chars "Donor_Entity_Name", chars "Donor_Name", chars "Entity_Name", chars "donor_entity_name",
   chars "Country", chars "parent_entity_if_applicable",
   chars "Type_Of_Entity", chars "Level_Of_Entity", chars "IOM_Membership_Status", chars "Website",
   chars "Thematic_Priorities_Related_To_IOM", chars "Thematic_Priorities_Narrative",
   chars "Geographical_Focus", chars "Geographic_Priorities_Narrative",
   chars "Donor_Outreach_Instructions", chars "Proposal_Format", chars "Funding_Agreement_Format",
   chars "Budget_Lines_Flexibility", chars "Reporting_Format", chars "No_Cost_Extensions_Policy",
   chars "Visibility_Logo_Guidelines", chars "Calls_For_Proposals_Cfp_Website",
   chars "Start_Of_Budget_Cycle", chars "End_Of_Budget_Cycle",
   chars "Additional_Info_Tips_Vis_A_Vis_Fundraising",
   chars "Organization_Chart", chars "Templates_Logos_And_Key_Documents",
   chars "Modified", chars "Modified_By", chars "Approval_Status", chars "source"]

/-- The builder's inner `pick`: first present (case-insensitive) key whose
value is not null; string values as-is, other values `json.dumps`-ed. -/
def bpPick (doc : Doc) : List (List Char) → List Char
  | [] => []
  | k :: rest =>
    match ciGet doc (lowerAll k) with
    | some Value.vNull => bpPick doc rest
    | some (Value.vStr s) => s
    | some v => pyJsonDumps v
    | none => bpPick doc rest

/-- Truthiness of an optional list (Python: `None` and `[]` are falsy). -/
def optListTruthy {α : Type} : Option (List α) → Bool
  | some l => !l.isEmpty
  | none => false

/-- Friendly label of a field name, when one is known. -/
def labelFor (k : List Char) : List Char :=
  match _FRIENDLY_LABELS.find? (fun p => p.1 == k) with
  | some p => p.2
  | none => k

/-- The `profile_text` local of `_build_profile_text`: the deterministic
projection of a candidate record into the LLM-ready profile text, before
the final `_truncate` call. -/
def _profile_body (cfg : MatcherConfig) (doc : Doc) : List Char :=
  let name := bpPick doc [chars "Donor_Entity_Name", chars "Donor_Name", chars "Entity_Name",
    chars "donor_entity_name"]
  let country := bpPick doc [chars "Country", chars "parent_entity_if_applicable"]
  let dtype := bpPick doc [chars "Type_Of_Entity"]
  let level := bpPick doc [chars "Level_Of_Entity"]
  let membership := bpPick doc [chars "IOM_Membership_Status"]
  let website := bpPick doc [chars "Website"]
  let priorities_list := _maybe_list (ciGet doc (chars "thematic_priorities_related_to_iom"))
  let priorities_narr := _strip_html (bpPick doc [chars "Thematic_Priorities_Narrative"])
  let geos_list := _maybe_list (ciGet doc (chars "geographical_focus"))
  let geo_narr := _strip_html (bpPick doc [chars "Geographic_Priorities_Narrative"])
  let outreach := _strip_html (bpPick doc [chars "Donor_Outreach_Instructions"])
  let proposals := bpPick doc [chars "Proposal_Format"]
  let funding_fmt := bpPick doc [chars "Funding_Agreement_Format"]
  let budget_flex := bpPick doc [chars "Budget_Lines_Flexibility"]
  let reporting := bpPick doc [chars "Reporting_Format"]
  let nce := bpPick doc [chars "No_Cost_Extensions_Policy"]
  let visibility := _strip_html (bpPick doc [chars "Visibility_Logo_Guidelines"])
  let cfp := bpPick doc [chars "Calls_For_Proposals_Cfp_Website"]
  let cycle_start := bpPick doc [chars "Start_Of_Budget_Cycle"]
  let cycle_end := bpPick doc [chars "End_Of_Budget_Cycle"]
  let extra_fundraising := _strip_html (bpPick doc [chars "Additional_Info_Tips_Vis_A_Vis_Fundraising"])
  let org_chart := bpPick doc [chars "Organization_Chart"]
  let templates_docs := bpPick doc [chars "Templates_Logos_And_Key_Documents"]
  let modified := bpPick doc [chars "Modified"]
  let modified_by := bpPick doc [chars "Modified_By"]
  let approval := bpPick doc [chars "Approval_Status"]
  let source := bpPick doc [chars "source"]
  let linesIdent : List (List Char) :=
    (if name.isEmpty then [] else [chars "Donor Name: " ++ name])
  let id_bits : List (List Char) :=
    (if country.isEmpty then [] else [chars "Country/Parent: " ++ country]) ++
    (if dtype.isEmpty then [] else [chars "Type: " ++ dtype]) ++
    (if level.isEmpty then [] else [chars "Level: " ++ level]) ++
    (if membership.isEmpty then [] else [chars "IOM Membership: " ++ membership])
  let linesIdent := linesIdent ++
    (if id_bits.isEmpty then [] else [joinSep (chars " | ") id_bits]) ++
    (if website.isEmpty then [] else [chars "Website: " ++ website])
  let linesFocus : List (List Char) :=
    (if optListTruthy priorities_list then
      chars "Thematic Priorities:" ::
        ((priorities_list.getD []).take 30).map (fun p => chars "- " ++ p)
     else []) ++
    (if priorities_narr.isEmpty then [] else [chars "Priorities Narrative:", priorities_narr]) ++
    (if optListTruthy geos_list then
      chars "Geographical Focus:" ::
        ((geos_list.getD []).take 40).map (fun g => chars "- " ++ g)
     else []) ++
    (if geo_narr.isEmpty then [] else [chars "Geographic Narrative:", geo_narr])
  let op_bits : List (List Char) :=
    (if proposals.isEmpty then [] else [chars "Proposal Format: " ++ proposals]) ++
    (if funding_fmt.isEmpty then [] else [chars "Funding Agreement: " ++ funding_fmt]) ++
    (if reporting.isEmpty then [] else [chars "Reporting: " ++ reporting]) ++
    (if budget_flex.isEmpty then [] else [chars "Budget Flexibility: " ++ budget_flex]) ++
    (if nce.isEmpty then [] else [chars "No-Cost Extensions: " ++ nce]) ++
    (if cycle_start.isEmpty && cycle_end.isEmpty then []
     else [chars "Budget Cycle: " ++ (if cycle_start.isEmpty then chars "N/A" else cycle_start) ++
       chars " → " ++ (if cycle_end.isEmpty then chars "N/A" else cycle_end)])
  let linesOps : List (List Char) :=
    (if op_bits.isEmpty then [] else chars "Processes & Policies:" :: op_bits) ++
    (if visibility.isEmpty then [] else [chars "Visibility/Logo Guidelines:", visibility]) ++
    (if cfp.isEmpty then [] else [chars "Calls for Proposals: " ++ cfp]) ++
    (if outreach.isEmpty then [] else [chars "Outreach Guidance:", outreach]) ++
    (if extra_fundraising.isEmpty then [] else [chars "Additional Fundraising Info:", extra_fundraising])
  let meta_bits : List (List Char) :=
    (if org_chart.isEmpty then [] else [chars "Org Chart: " ++ org_chart]) ++
    (if templates_docs.isEmpty then [] else [chars "Templates/Docs: " ++ templates_docs]) ++
    (if modified.isEmpty then [] else [chars "Modified: " ++ modified]) ++
    (if modified_by.isEmpty then [] else [chars "Modified By: " ++ modified_by]) ++
    (if approval.isEmpty then [] else [chars "Approval: " ++ approval]) ++
    (if source.isEmpty then [] else [chars "Source: " ++ source])
  let linesMeta : List (List Char) :=
    if meta_bits.isEmpty then [] else chars "Meta:" :: meta_bits
  let used_keys : List (List Char) := _PRIMARY_KEYS.map lowerAll ++
    [chars "id", chars "csv_row_index", chars "created_at", chars "updated_at",
     chars "_rid", chars "_self", chars "_etag", chars "_attachments", chars "_ts",
     chars "donor_entity_name", chars "parent_entity_if_applicable"]
  let include_set := cfg.includeFields.map lowerAll
  let exclude_set := cfg.excludeFields.map lowerAll ++ used_keys
  let other_pairs : List (List Char × List Char) := doc.filterMap (fun kv =>
    let kl := lowerAll kv.1
    if exclude_set.contains kl && !include_set.contains kl then none
    else
      match kv.2 with
      | Value.vNull => none
      | v =>
        let sv := _strip_html (match v with | Value.vStr s => s | v' => pyJsonDumps v')
        if sv.isEmpty || sv == chars "[]" then none
        else some (labelFor kv.1, sv))
  let linesOther : List (List Char) :=
    if other_pairs.isEmpty then []
    else chars "Other Fields:" :: (other_pairs.take 40).map (fun p =>
      let value := if p.2.length ≤ 600 then p.2 else p.2.take 580 ++ chars "…"
      chars "- " ++ p.1 ++ chars ": " ++ value)
  let lines := linesIdent ++ linesFocus ++ linesOps ++ linesMeta ++ linesOther
  pyStrip (joinSep (chars "\n") (lines.filter (fun ln => !ln.isEmpty)))

/-- `_build_profile_text`: the profile text, globally capped by
`_truncate` at the configured maximum. -/
def _build_profile_text (cfg : MatcherConfig) (doc : Doc) : List Char :=
  _truncate (_profile_body cfg doc) cfg.maxChars

/-! ### Candidate collection and the lookup entry point

The Cosmos container is modelled as the list of its documents; the SQL
queries of `_collect_candidates` (substring search over the lowered name
fields with `TOP 50`, and the unfiltered `TOP 200` fallback scan) are
modelled by their semantics on that list.  A store failure path (exception
per token query) is not modelled: the store is total. -/

/-- `CONTAINS(LOWER(c.field), tok)` for a document field. -/
def fieldContainsTok (d : Doc) (field tok : List Char) : Bool :=
  match dget d field with
  | some (Value.vStr s) => hasSub (lowerAll s) tok
  | _ => false

/-- The per-token query:
`SELECT TOP 50 * FROM c WHERE CONTAINS(LOWER(c.donor_entity_name), @tok) OR
CONTAINS(LOWER(c.donor_name), @tok)`. -/
def cosmosNameQuery (container : List Doc) (tok : List Char) : List Doc :=
  (container.filter (fun d =>
    fieldContainsTok d (chars "donor_entity_name") tok ||
    fieldContainsTok d (chars "donor_name") tok)).take 50

/-- Accumulate one queried document: skip it unless it has a truthy `id`
not seen before. -/
def collectStep (st : List Doc × List Value) (d : Doc) : List Doc × List Value :=
  match dget d (chars "id") with
  | some idv => if pyTruthy idv && !st.2.contains idv then (st.1 ++ [d], st.2 ++ [idv]) else st
  | none => st

/-- `_collect_candidates`: per-token queries merged and deduplicated by id,
with the unfiltered `TOP 200` scan as fallback when nothing was found. -/
def _collect_candidates (cfg : MatcherConfig) (container : List Doc) (name : List Char) :
    List Doc :=
  let toks := _tokens cfg name
  let st1 := toks.foldl (fun st tok => (cosmosNameQuery container tok).foldl collectStep st)
    ([], [])
  let st2 := if st1.1.isEmpty then (container.take 200).foldl collectStep st1 else st1
  st2.1

/-- The scoring loop's candidate name:
`d.get("donor_entity_name") or d.get("Donor_Entity_Name") or d.get("Donor_Name")
or d.get("Entity_Name") or ""`.  A truthy non-string name field would raise a
`TypeError` inside `_norm` in the source and is not modelled (it yields `""`
here). -/
def candidateName (d : Doc) : List Char :=
  let rec firstTruthyStr : List (Option Value) → List Char
    | [] => []
    | some v :: rest =>
      if pyTruthy v then (match v with | Value.vStr s => s | _ => []) else firstTruthyStr rest
    | none :: rest => firstTruthyStr rest
  firstTruthyStr [dget d (chars "donor_entity_name"), dget d (chars "Donor_Entity_Name"),
    dget d (chars "Donor_Name"), dget d (chars "Entity_Name")]

/-- Python `a or b or ...` over optional values: first truthy value, else
the last value (possibly `none`). -/
def pyOrValue : List (Option Value) → Option Value
  | [] => none
  | [x] => x
  | x :: rest =>
    match x with
    | some v => if pyTruthy v then some v else pyOrValue rest
    | none => pyOrValue rest

/-- `round(q, 3)` with banker's rounding (the binary-float rounding noise of
Python's `round` on `float` is not modelled). -/
def roundQ3 (q : ℚ) : ℚ :=
  let x := q * 1000
  let f := ⌊x⌋
  let r := x - f
  (if r < 1/2 then (f : ℚ) else if 1/2 < r then (f : ℚ) + 1
   else if f % 2 = 0 then (f : ℚ) else (f : ℚ) + 1) / 1000

/-- The metadata dictionary returned on a successful lookup. -/
structure LookupMeta where
  match_score : ℚ
  match_id : Option Value
  match_name : Option Value

/-- `lookup_donor_profile_text`: the public entry point.  Returns the
profile text and the metadata, or `([], none)` (the empty result `("", {})`)
when lookup is disabled, the name is empty, no candidate is found, or the
best score is below the configured minimum. -/
def lookup_donor_profile_text (cfg : MatcherConfig) (profile_container : List Doc)
    (donor_name : List Char) : List Char × Option LookupMeta :=
  if !cfg.lookupEnable || donor_name.isEmpty then ([], none)
  else
    let cands := _collect_candidates cfg profile_container donor_name
    if cands.isEmpty then ([], none)
    else
      let best := cands.foldl (fun (st : ℚ × Option Doc) d =>
        let sc := _score cfg donor_name (candidateName d)
        if st.1 < sc then (sc, some d) else st) (-1, none)
      match best.2 with
      | none => ([], none)
      | some bd =>
        if bd.isEmpty || best.1 < cfg.minScore then ([], none)
        else
          (_build_profile_text cfg bd,
           some ⟨roundQ3 best.1, dget bd (chars "id"),
             pyOrValue [dget bd (chars "donor_entity_name"), dget bd (chars "Donor_Entity_Name"),
               dget bd (chars "Donor_Name"), dget bd (chars "Entity_Name")]⟩)

/-! ### `web_scraper.py`: identity resolution, query tiers, relevance filter

The DuckDuckGo provider and the page fetcher are external collaborators,
passed as function parameters (the fetcher models `fetch_and_clean_content`,
which always returns a string — an error-describing one on failure); the
`save_to_disk` file write and the log statements are I/O glue and are not
modelled.  `datetime.utcnow().isoformat()` is passed in as `now`. -/

/-- The environment knobs of `web_scraper.py`, with their defaults.
`requireNameInBodyNonpinned` is read by the source but never consulted by
the filter; it is kept for completeness. -/
structure ScraperConfig where
  domainPinning : Bool
  requireNameInBodyNonpinned : Bool
  maxResultsDefault : Nat
  bodyLineLimit : Nat
  disablePrefilterForPinned : Bool

/-- Default scraper environment. -/
def defaultScraperConfig : ScraperConfig := ⟨true, true, 5, 200, true⟩

/-- One entry of the static donor registry. -/
structure RegistryEntry where
  canonical : List Char
  synonyms : List (List Char)
  domains : List (List Char)

/-- `DONOR_REGISTRY`. -/
def DONOR_REGISTRY : List RegistryEntry :=
  [⟨chars "Swedish International Development Cooperation Agency (Sida)",
    [chars "Sida", chars "Swedish International Development Cooperation Agency",
     chars "Government of Sweden"],
    [chars "sida.se", chars "government.se", chars "swedenabroad.se"]⟩,
   ⟨chars "United States Agency for International Development (USAID)",
    [chars "USAID", chars "United States Agency for International Development"],
    [chars "usaid.gov"]⟩,
   ⟨chars "Foreign, Commonwealth & Development Office (FCDO)",
    [chars "FCDO", chars "UK aid", chars "UK Foreign, Commonwealth & Development Office"],
    [chars "gov.uk"]⟩,
   ⟨chars "Deutsche Gesellschaft für Internationale Zusammenarbeit (GIZ)",
    [chars "GIZ", chars "Deutsche Gesellschaft fuer Internationale Zusammenarbeit"],
    [chars "giz.de"]⟩,
   ⟨chars "United Nations Development Programme (UNDP)",
    [chars "UNDP", chars "United Nations Development Programme"],
    [chars "undp.org"]⟩,
   ⟨chars "United Nations Children's Fund (UNICEF)",
    [chars "UNICEF"],
    [chars "unicef.org"]⟩,
   ⟨chars "World Bank",
    [chars "World Bank", chars "IBRD", chars "IDA"],
    [chars "worldbank.org"]⟩]

/-- `OFF_TOPIC_BASE`: the drift-magnet organisation names. -/
def OFF_TOPIC_BASE : List (List Char) :=
  [chars "Bill & Melinda Gates Foundation", chars "Gates Foundation",
   chars "Ford Foundation", chars "Open Society Foundations",
   chars "Open Society Foundation", chars "OSF"]

/-- `_strip_trailing_digits`: `re.sub(r"\s+\d+$", "", name.strip())` — one
trailing run of digits preceded by whitespace is removed. -/
def _strip_trailing_digits (name : List Char) : List Char :=
  let t := pyStrip name
  let rev := t.reverse
  let ds := rev.takeWhile Char.isDigit
  let ws := (rev.drop ds.length).takeWhile isPySpace
  if ds.isEmpty || ws.isEmpty then t else (rev.drop (ds.length + ws.length)).reverse

/-- `_split_paren`: match `^(.*)\(([^)]+)\)\s*$` against `name.strip()` and
return the stripped groups; on no match return `(name, "")`.  The greedy
`.*` pairs the final `)` with the last `(`, and the match fails when the
content between them is empty or itself contains `)`. -/
def _split_paren (name : List Char) : List Char × List Char :=
  let t := pyStrip name
  match t.getLast? with
  | some ')' =>
    let u := t.dropLast
    let contentRev := u.reverse.takeWhile (fun c => !(c == '('))
    if contentRev.length == u.length then (name, [])
    else
      let content := contentRev.reverse
      if content.isEmpty || content.contains ')' then (name, [])
      else (pyStrip (u.take (u.length - contentRev.length - 1)), pyStrip content)
  | _ => (name, [])

/-- Python word characters for `\w` (the approximation treats every
non-ASCII character as a word character; the registry and the claims use
ASCII inputs apart from letters like `ü`, which are `\w` in Python too). -/
def isWordCh (c : Char) : Bool := c.isAlphanum || c == '_' || decide (127 < c.toNat)

/-- `_make_acronym`: first letters of the non-stopword tokens (tokens split
on whitespace/hyphens after punctuation removal), upper-cased, kept only
when at least 3 letters long. -/
def _make_acronym (name : List Char) : List Char :=
  let cleaned := name.map (fun c => if isWordCh c || isPySpace c || c == '-' then c else ' ')
  let tokens := splitRuns (fun c => isPySpace c || c == '-') cleaned
  let letters := tokens.filterMap (fun w =>
    match w with
    | [] => none
    | c0 :: _ =>
      if STOPWORDS.contains ((lowerAll w).filter isAZ09) then none else some c0)
  let ac := letters.map Char.toUpper
  if 3 ≤ ac.length then ac else []

/-- Deduplicate keeping first occurrences: the model of a Python `set`
built by successive insertion.  (CPython set iteration order is
unspecified; every claim proved below is independent of the order.) -/
def dedupKeepFirst (l : List (List Char)) : List (List Char) :=
  l.foldl (fun acc x => if acc.contains x then acc else acc ++ [x]) []

/-- The reverse map of the registry: normalised synonym ↦ canonical name
(later assignments win, as in the source's dict build). -/
def registryPairs : List (List Char × List Char) :=
  DONOR_REGISTRY.flatMap (fun e =>
    (e.canonical :: e.synonyms).map (fun n => (_norm n, e.canonical)))

/-- Reverse-map lookup of a normalised key. -/
def revLookup (key : List Char) : Option (List Char) :=
  (registryPairs.reverse.find? (fun p => p.1 == key)).map (fun p => p.2)

/-- The registry entry of a canonical name. -/
def registryEntry (canon : List Char) : Option RegistryEntry :=
  DONOR_REGISTRY.find? (fun e => e.canonical == canon)

/-- Try the lookup candidates in order; first registry hit wins. -/
def findRegistryHit : List (List Char) → Option (List Char × RegistryEntry)
  | [] => none
  | c :: rest =>
    match revLookup (_norm c) with
    | some canon => (registryEntry canon).map (fun e => (canon, e))
    | none => findRegistryHit rest

/-- `_registry_lookup`: returns `(canonical, synonyms, domains)`.  The
candidate set `{clean, base, par}` and the synonym sets are Python sets;
they are modelled as insertion-ordered deduplicated lists. -/
def _registry_lookup (name : List Char) : List Char × List (List Char) × List (List Char) :=
  let clean := _strip_trailing_digits name
  let bp := _split_paren clean
  let base := bp.1
  let par := bp.2
  match findRegistryHit (dedupKeepFirst [clean, base, par]) with
  | some (canon, entry) => (canon, dedupKeepFirst (canon :: entry.synonyms), entry.domains)
  | none =>
    let syns := dedupKeepFirst ([clean] ++ (if base.isEmpty then [] else [base]) ++
      (if par.isEmpty then [] else [par]))
    let ac := if par.isEmpty then _make_acronym (if base.isEmpty then clean else base) else par
    (clean, (if ac.isEmpty then syns else dedupKeepFirst (syns ++ [ac])), [])

/-- `_off_topic_for`: the drift magnets that are not a synonym of the
resolved identity. -/
def _off_topic_for (canonical : List Char) (synonyms : List (List Char)) : List (List Char) :=
  let synset := synonyms.map lowerAll ++ [lowerAll canonical]
  OFF_TOPIC_BASE.filter (fun d => !synset.contains (lowerAll d))

/-- `_site_filters`: the site-restriction clause, present only when domain
pinning is enabled and there are trusted domains. -/
def _site_filters (cfg : ScraperConfig) (domains : List (List Char)) : List Char :=
  if !(cfg.domainPinning && !domains.isEmpty) then []
  else chars " (" ++ joinSep (chars " OR ") (domains.map (fun d => chars "site:" ++ d)) ++
    chars ")"

/-- `_contains_any_text`: case-insensitive substring containment of any
needle. -/
def _contains_any_text (text : List Char) (needles : List (List Char)) : Bool :=
  if text.isEmpty || needles.isEmpty then false
  else needles.any (fun n => hasSub (lowerAll text) (lowerAll n))

/-- Does a `\b` word boundary sit between a (possibly absent) adjacent
character and an edge character of the needle?  (`\b` holds exactly when the
two sides differ in word-character-ness; out of bounds counts as
non-word.) -/
def boundaryB (adjacent : Option Char) (needleEdgeIsWord : Bool) : Bool :=
  (match adjacent with | some c => isWordCh c | none => false) != needleEdgeIsWord

/-- Does the (lowered, nonempty) needle match at the head of `t`, with word
boundaries on both sides, `prev` being the character before `t`? -/
def wordAtHead (n t : List Char) (prev : Option Char) : Bool :=
  leadsWith n t && boundaryB prev (isWordCh (n.headD ' ')) &&
    boundaryB (t.drop n.length).head? (isWordCh (n.getLastD ' '))

/-- Scan `t` for a word-boundary match of `n` (`re.search` of
`\b<escaped needle>\b`). -/
def wordScan (n : List Char) : Option Char → List Char → Bool
  | prev, [] => wordAtHead n [] prev
  | prev, c :: rest => wordAtHead n (c :: rest) prev || wordScan n (some c) rest

/-- `_contains_any_word`: some non-falsy needle matches as a whole
word/phrase in the lowered text. -/
def _contains_any_word (text : List Char) (needles : List (List Char)) : Bool :=
  if text.isEmpty || needles.isEmpty then false
  else needles.any (fun n =>
    if n.isEmpty then false else wordScan (lowerAll n) none (lowerAll text))

/-- The suffix of `hay` after the first occurrence of `marker`. -/
def afterMarker : List Char → List Char → Option (List Char)
  | [], marker => if marker.isEmpty then some [] else none
  | c :: t, marker =>
    if leadsWith marker (c :: t) then some ((c :: t).drop marker.length)
    else afterMarker t marker

/-- `_domain_of`: `urlparse(url).netloc.lower()`, modelled as the lowered
authority component — the run after the first `://` (or a leading `//`) up
to the next `/`, `?` or `#`; empty when the URL has no authority. -/
def _domain_of (url : List Char) : List Char :=
  let rest := if leadsWith (chars "//") url then some (url.drop 2)
    else afterMarker url (chars "://")
  match rest with
  | some r => lowerAll (r.takeWhile (fun c => !(c == '/' || c == '?' || c == '#')))
  | none => []

/-- The fixed keyword OR-group of tiers 1–3. -/
def kwCore : List Char :=
  chars "(\"strategic plan\" OR \"funding priorities\" OR \"annual report\" OR strategy OR priorities OR grants)"

/-- The document-bias keyword group of tier 4. -/
def pdfKw : List Char := chars "(filetype:pdf OR \"annual report\" OR strategy)"

/-- Wrap a string in double quotes (`f"\"{s}\""`). -/
def quoteStr (s : List Char) : List Char := '"' :: (s ++ ['"'])

/-- The four query tiers of `search_donor_articles`. -/
def buildQueries (cfg : ScraperConfig) (canonical : List Char)
    (synonyms reg_domains : List (List Char)) (region theme : List Char) :
    List (List Char) :=
  let site_q := _site_filters cfg reg_domains
  let base := [quoteStr canonical] ++ (if theme.isEmpty then [] else [quoteStr theme]) ++
    (if region.isEmpty then [] else [quoteStr region])
  let q1 := joinSep (chars " ") (base ++ [kwCore]) ++ site_q
  let q2 := joinSep (chars " ") (base ++ [kwCore])
  let syn_or := '(' ::
    (joinSep (chars " OR ") ((synonyms.filter (fun s => !s.isEmpty)).map quoteStr) ++ [')'])
  let q3 := joinSep (chars " ") [syn_or, kwCore]
  let q4 := joinSep (chars " ") [syn_or, pdfKw] ++ site_q
  [q1, q2, q3, q4]

/-- One raw provider hit (`{title, href/url/link, body/snippet, date}`). -/
structure Hit where
  href : Option (List Char)
  url : Option (List Char)
  link : Option (List Char)
  title : Option (List Char)
  body : Option (List Char)
  snippet : Option (List Char)
  date : Option (List Char)

/-- One accepted search result. -/
structure SearchResult where
  title : List Char
  url : List Char
  body : List Char
  date : List Char
  canonical : List Char

/-- Python `a or b or ...` over optional strings, collapsed to `""` when
every operand is falsy (a falsy end value is only ever tested for
falsiness afterwards). -/
def pyOrStrs : List (Option (List Char)) → List Char
  | [] => []
  | some s :: rest => if s.isEmpty then pyOrStrs rest else s
  | none :: rest => pyOrStrs rest

/-- `url.split("#")[0]`: the URL with its fragment stripped. -/
def normUrl (url : List Char) : List Char := url.takeWhile (fun c => !(c == '#'))

/-- The per-hit filtering pipeline of `search_donor_articles`: URL check,
session-level deduplication, domain pinning, pre-filter on
title+snippet+URL, off-topic rejection, body fetch, post-filter, and
acceptance.  State: `(results, seen)`. -/
def hitStep (cfg : ScraperConfig) (fetch : List Char → List Char)
    (synonyms off_topic reg_domains : List (List Char)) (canonical now : List Char)
    (st : List SearchResult × List (List Char)) (r : Hit) :
    List SearchResult × List (List Char) :=
  let url := pyOrStrs [r.href, r.url, r.link]
  let title := pyStrip (r.title.getD [])
  let snippet := pyStrip (pyOrStrs [r.body, r.snippet])
  if url.isEmpty then st
  else
    let nurl := normUrl url
    if st.2.contains nurl then st
    else
      let dom := _domain_of url
      let pinned := reg_domains.any (fun d => listEndsWith dom d)
      let pre_blob := title ++ chars " " ++ snippet ++ chars " " ++ url
      if (!pinned || !cfg.disablePrefilterForPinned) && !_contains_any_word pre_blob synonyms
      then st
      else if _contains_any_text pre_blob off_topic then st
      else
        let body := fetch url
        if !pinned && !(_contains_any_word body synonyms || _contains_any_word title synonyms)
        then st
        else if pinned && _contains_any_text body off_topic then st
        else
          let date := if (r.date.getD []).isEmpty then now else r.date.getD []
          (st.1 ++ [⟨title, url, body, date, canonical⟩], st.2 ++ [nurl])

/-- The inner per-tier loop: process hits in order, stopping as soon as the
requested result count is reached. -/
def tierLoop (cfg : ScraperConfig) (fetch : List Char → List Char)
    (synonyms off_topic reg_domains : List (List Char)) (canonical now : List Char)
    (max_results : Nat) :
    List Hit → List SearchResult × List (List Char) → List SearchResult × List (List Char)
  | [], st => st
  | r :: rest, st =>
    let st' := hitStep cfg fetch synonyms off_topic reg_domains canonical now st r
    if max_results ≤ st'.1.length then st'
    else tierLoop cfg fetch synonyms off_topic reg_domains canonical now max_results rest st'

/-- The outer tier loop: before each tier, stop if enough results were
collected; a provider error skips the tier.  The provider is called with the
over-fetch count `max 30 (max_results * 5)`. -/
def searchLoop (cfg : ScraperConfig)
    (provider : List Char → Nat → Except (List Char) (List Hit))
    (fetch : List Char → List Char)
    (synonyms off_topic reg_domains : List (List Char)) (canonical now : List Char)
    (max_results : Nat) :
    List (List Char) → List SearchResult × List (List Char) →
      List SearchResult × List (List Char)
  | [], st => st
  | q :: qs, st =>
    if max_results ≤ st.1.length then st
    else
      match provider q (max 30 (max_results * 5)) with
      | Except.error _ =>
        searchLoop cfg provider fetch synonyms off_topic reg_domains canonical now
          max_results qs st
      | Except.ok hits =>
        searchLoop cfg provider fetch synonyms off_topic reg_domains canonical now
          max_results qs
          (tierLoop cfg fetch synonyms off_topic reg_domains canonical now max_results hits st)

/-- `search_donor_articles`: resolve the identity, build the four query
tiers, and run the filtered collection loop. -/
def search_donor_articles (cfg : ScraperConfig)
    (provider : List Char → Nat → Except (List Char) (List Hit))
    (fetch : List Char → List Char) (now : List Char)
    (donor_name region theme : List Char) (max_results : Nat) : List SearchResult :=
  let rl := _registry_lookup donor_name
  let off_topic := _off_topic_for rl.1 rl.2.1
  let queries := buildQueries cfg rl.1 rl.2.1 rl.2.2 region theme
  (searchLoop cfg provider fetch rl.2.1 off_topic rl.2.2 rl.1 now max_results queries
    ([], [])).1

/-- Session-level deduplication invariant on the `(results, seen)` state of
the collection loop: every accepted result's normalized URL is recorded in
`seen`, and the accepted results have pairwise distinct normalized URLs. -/
def dedupInv (st : List SearchResult × List (List Char)) : Prop :=
  (∀ x ∈ st.1, normUrl x.url ∈ st.2) ∧
  List.Pairwise (fun r1 r2 => normUrl r1.url ≠ normUrl r2.url) st.1

/-!
## Lemmas

### `SequenceMatcher.ratio` on two equal sequences

On `(a, a)` the main loop's best block always lies on the diagonal, because
for every row `i` the row maximum of the diagonal-run length is attained at
the diagonal and the first strict improvement within a row happens there;
the extension loops then grow any diagonal block to the whole sequence, so
`find_longest_match` over the full window returns `(0, 0, |a|)` and the
ratio is `1`.
-/

theorem runlen_le_right (a b : List Char) (pop : Char → Bool) (alo ahi blo bhi : Nat) :
    ∀ i j, runlen a b pop alo ahi blo bhi i j ≤ j + 1 := by
  intro i
  induction i with
  | zero => intro j; unfold runlen; split <;> omega
  | succ i ih =>
    intro j
    unfold runlen
    split
    · split
      · have h2 := ih (j - 1)
        rename_i hand
        omega
      · omega
    · omega

theorem runlen_le_left (a b : List Char) (pop : Char → Bool) (alo ahi blo bhi : Nat) :
    ∀ i j, runlen a b pop alo ahi blo bhi i j ≤ i + 1 := by
  intro i
  induction i with
  | zero => intro j; unfold runlen; split <;> omega
  | succ i ih =>
    intro j
    unfold runlen
    split
    · split
      · have h2 := ih (j - 1)
        omega
      · omega
    · omega

theorem runCond_self_diag {a : List Char} {pop : Char → Bool} {n i j : Nat}
    (h : runCond a a pop 0 n 0 n i j) : runCond a a pop 0 n 0 n j j := by
  unfold runCond at h ⊢
  obtain ⟨-, -, h3, h4, -, h6, -, h8⟩ := h
  exact ⟨h3, h4, h3, h4, h6, h6, rfl, h8⟩

theorem runCond_self_row {a : List Char} {pop : Char → Bool} {n i j : Nat}
    (h : runCond a a pop 0 n 0 n i j) : runCond a a pop 0 n 0 n i i := by
  unfold runCond at h ⊢
  obtain ⟨h1, h2, -, -, h5, -, h7, h8⟩ := h
  exact ⟨h1, h2, h1, h2, h5, h5, rfl, h7 ▸ h8⟩

theorem runlen_pos {a b : List Char} {pop : Char → Bool} {alo ahi blo bhi i j : Nat}
    (h : runCond a b pop alo ahi blo bhi i j) :
    1 ≤ runlen a b pop alo ahi blo bhi i j := by
  cases i with
  | zero => simp only [runlen]; rw [if_pos h]
  | succ i => simp only [runlen]; rw [if_pos h]; omega

theorem runlen_diag_succ {a : List Char} {pop : Char → Bool} {n j : Nat}
    (h : runCond a a pop 0 n 0 n (j + 1) (j + 1)) :
    runlen a a pop 0 n 0 n (j + 1) (j + 1) = runlen a a pop 0 n 0 n j j + 1 := by
  conv_lhs => simp only [runlen]
  rw [if_pos h, if_pos ⟨Nat.succ_pos j, Nat.succ_pos j⟩]
  simp

theorem runlen_self_le_diag_right (a : List Char) (pop : Char → Bool) (n : Nat) :
    ∀ i j, runlen a a pop 0 n 0 n i j ≤ runlen a a pop 0 n 0 n j j := by
  intro i
  induction i with
  | zero =>
    intro j
    conv_lhs => simp only [runlen]
    split
    · rename_i h
      exact runlen_pos (runCond_self_diag h)
    · omega
  | succ i ih =>
    intro j
    by_cases h : runCond a a pop 0 n 0 n (i + 1) j
    · have hjj := runCond_self_diag h
      cases j with
      | zero =>
        conv_lhs => simp only [runlen]
        rw [if_pos h, if_neg (by omega)]
        exact runlen_pos hjj
      | succ j' =>
        conv_lhs => simp only [runlen]
        rw [if_pos h, if_pos ⟨Nat.succ_pos i, Nat.succ_pos j'⟩, runlen_diag_succ hjj]
        have := ih (j' + 1 - 1)
        simpa using this
    · conv_lhs => simp only [runlen]
      rw [if_neg h]
      omega

theorem runlen_self_le_diag_left (a : List Char) (pop : Char → Bool) (n : Nat) :
    ∀ i j, runlen a a pop 0 n 0 n i j ≤ runlen a a pop 0 n 0 n i i := by
  intro i
  induction i with
  | zero =>
    intro j
    conv_lhs => simp only [runlen]
    split
    · rename_i h
      exact runlen_pos (runCond_self_row h)
    · omega
  | succ i ih =>
    intro j
    by_cases h : runCond a a pop 0 n 0 n (i + 1) j
    · have hii := runCond_self_row h
      rw [runlen_diag_succ hii]
      conv_lhs => unfold runlen
      rw [if_pos h]
      split
      · have := ih (j - 1)
        omega
      · omega
    · conv_lhs => simp only [runlen]
      rw [if_neg h]
      omega

theorem foldl_colStep_no_update (a b : List Char) (pop : Char → Bool)
    (alo ahi blo bhi i : Nat) :
    ∀ (cols : List Nat) (st : Nat × Nat × Nat),
      (∀ j ∈ cols, runlen a b pop alo ahi blo bhi i j ≤ st.2.2) →
      cols.foldl (flmColStep a b pop alo ahi blo bhi i) st = st := by
  intro cols
  induction cols with
  | nil => intro st _; rfl
  | cons j js ih =>
    intro st h
    have hstep : flmColStep a b pop alo ahi blo bhi i st j = st := by
      unfold flmColStep
      rw [if_neg (by have := h j (List.mem_cons_self j js); omega)]
    rw [List.foldl_cons, hstep]
    exact ih st (fun j' hj' => h j' (List.mem_cons_of_mem j hj'))

theorem range'_split_at {i n : Nat} (h : i < n) :
    List.range' 0 n = List.range' 0 i ++ i :: List.range' (i + 1) (n - (i + 1)) := by
  have h1 : List.range' 0 i ++ List.range' (0 + i) (n - i) = List.range' 0 (n - i + i) :=
    List.range'_append_1 0 i (n - i)
  have h2 : n - i = (n - (i + 1)) + 1 := by omega
  have h3 : n - i + i = n := by omega
  rw [h3, h2] at h1
  rw [← h1, List.range'_succ]
  simp

theorem flmRow_self_small (a : List Char) (pop : Char → Bool) (n : Nat) (i d B : Nat)
    (hgB : runlen a a pop 0 n 0 n i i ≤ B)
    (hall : ∀ p, p < i → runlen a a pop 0 n 0 n p p ≤ B) :
    flmRow a a pop 0 n 0 n (d, d, B) i = (d, d, B) := by
  unfold flmRow
  apply foldl_colStep_no_update
  intro j hj
  rcases Nat.lt_or_ge j i with hji | hij
  · exact le_trans (runlen_self_le_diag_right a pop n i j) (hall j hji)
  · exact le_trans (runlen_self_le_diag_left a pop n i j) hgB

theorem flmRow_self_big (a : List Char) (pop : Char → Bool) (n : Nat) (i d B : Nat)
    (hin : i < n)
    (hgB : B < runlen a a pop 0 n 0 n i i)
    (hall : ∀ p, p < i → runlen a a pop 0 n 0 n p p ≤ B) :
    flmRow a a pop 0 n 0 n (d, d, B) i =
      (i + 1 - runlen a a pop 0 n 0 n i i, i + 1 - runlen a a pop 0 n 0 n i i,
        runlen a a pop 0 n 0 n i i) := by
  unfold flmRow
  rw [Nat.sub_zero, range'_split_at hin, List.foldl_append, List.foldl_cons]
  rw [foldl_colStep_no_update a a pop 0 n 0 n i (List.range' 0 i) (d, d, B)
    (fun j hj => by
      have hji : j < i := by
        have := List.mem_range'_1.mp hj
        omega
      exact le_trans (runlen_self_le_diag_right a pop n i j) (hall j hji))]
  have hstep : flmColStep a a pop 0 n 0 n i (d, d, B) i =
      (i + 1 - runlen a a pop 0 n 0 n i i, i + 1 - runlen a a pop 0 n 0 n i i,
        runlen a a pop 0 n 0 n i i) := by
    unfold flmColStep
    rw [if_pos hgB]
  rw [hstep]
  apply foldl_colStep_no_update
  intro j _
  exact runlen_self_le_diag_left a pop n i j

theorem flmBest_self_aux (a : List Char) (pop : Char → Bool) (n : Nat) :
    ∀ m, m ≤ n → ∃ d B,
      (List.range' 0 m).foldl (flmRow a a pop 0 n 0 n) (0, 0, 0) = (d, d, B) ∧
      d + B ≤ n ∧ ∀ p, p < m → runlen a a pop 0 n 0 n p p ≤ B := by
  intro m
  induction m with
  | zero => intro _; exact ⟨0, 0, rfl, by omega, fun p hp => by omega⟩
  | succ m ih =>
    intro hmn
    obtain ⟨d, B, heq, hdB, hall⟩ := ih (by omega)
    rw [List.range'_1_concat, List.foldl_append, heq]
    simp only [List.foldl_cons, List.foldl_nil, Nat.zero_add]
    rcases le_or_lt (runlen a a pop 0 n 0 n m m) B with hle | hlt
    · refine ⟨d, B, flmRow_self_small a pop n m d B hle hall, hdB, fun p hp => ?_⟩
      rcases Nat.lt_or_ge p m with h | h
      · exact hall p h
      · have : p = m := by omega
        exact this ▸ hle
    · refine ⟨m + 1 - runlen a a pop 0 n 0 n m m, runlen a a pop 0 n 0 n m m,
        flmRow_self_big a pop n m d B (by omega) hlt hall, ?_, fun p hp => ?_⟩
      · have hbound := runlen_le_left a a pop 0 n 0 n m m
        omega
      · rcases Nat.lt_or_ge p m with h | h
        · exact le_trans (hall p h) (Nat.le_of_lt hlt)
        · have : p = m := by omega
          exact this ▸ Nat.le_refl _

theorem flmBest_self (a : List Char) (pop : Char → Bool) (n : Nat) :
    ∃ d B, flmBest a a pop 0 n 0 n = (d, d, B) ∧ d + B ≤ n := by
  obtain ⟨d, B, heq, hdB, -⟩ := flmBest_self_aux a pop n n (Nat.le_refl n)
  exact ⟨d, B, by unfold flmBest; rw [Nat.sub_zero]; exact heq, hdB⟩

theorem extLeft_self_diag (a : List Char) (p : Char → Bool) (hp : ∀ c, p c = true) :
    ∀ d bs, extLeft a a p 0 0 d d bs = (0, 0, bs + d) := by
  intro d
  induction d with
  | zero => intro bs; rfl
  | succ d ih =>
    intro bs
    have hcond : extCondL a a p 0 0 (d + 1) (d + 1) :=
      ⟨Nat.succ_pos d, Nat.succ_pos d, hp _, rfl⟩
    simp only [extLeft]
    rw [if_pos hcond]
    have h1 : d + 1 - 1 = d := rfl
    rw [h1, ih (bs + 1)]
    have h2 : bs + 1 + d = bs + (d + 1) := by omega
    rw [h2]

theorem extLeft_stuck (a b : List Char) (p : Char → Bool) (alo blo bj bs : Nat) :
    extLeft a b p alo blo alo bj bs = (alo, bj, bs) := by
  cases halo : alo with
  | zero => rfl
  | succ a' =>
    simp only [extLeft]
    rw [if_neg (fun h => absurd h.1 (lt_irrefl _))]

theorem extRight_self (a : List Char) (p : Char → Bool) (hp : ∀ c, p c = true) (n : Nat) :
    ∀ fuel s, fuel = n - s → s ≤ n → extRight a a p n n 0 0 fuel s = n := by
  intro fuel
  induction fuel with
  | zero => intro s h1 h2; simp only [extRight]; omega
  | succ f ih =>
    intro s h1 h2
    have hcond : extCondR a a p n n 0 0 s := ⟨by omega, by omega, hp _, rfl⟩
    simp only [extRight]
    rw [if_pos hcond]
    exact ih (s + 1) (by omega) (by omega)

theorem extRight_fuel_zero (a b : List Char) (p : Char → Bool) (ahi bhi bi bj bs : Nat) :
    extRight a b p ahi bhi bi bj 0 bs = bs := rfl

theorem findLongestMatch_self (a : List Char) (pop : Char → Bool) (n : Nat) :
    findLongestMatch a a pop (fun _ => false) 0 n 0 n = (0, 0, n) := by
  obtain ⟨d, B, hbest, hdB⟩ := flmBest_self a pop n
  unfold findLongestMatch
  rw [hbest]
  simp only [Bool.not_false, Nat.zero_add,
    extLeft_self_diag a (fun _ => true) (fun _ => rfl)]
  rw [extRight_self a (fun _ => true) (fun _ => rfl) n (n - (B + d)) (B + d) rfl (by omega)]
  simp only [extLeft_stuck, Nat.zero_add, Nat.sub_self, extRight_fuel_zero]

theorem findLongestMatch_window_empty (a b : List Char) (pop jnk : Char → Bool)
    (alo blo bhi : Nat) :
    findLongestMatch a b pop jnk alo alo blo bhi = (alo, blo, 0) := by
  have hbest : flmBest a b pop alo alo blo bhi = (alo, blo, 0) := by
    unfold flmBest
    rw [Nat.sub_self]
    rfl
  unfold findLongestMatch
  rw [hbest]
  simp only [extLeft_stuck, Nat.add_zero, Nat.sub_self, extRight_fuel_zero]

theorem matchTotalAux_window_empty (a b : List Char) (pop jnk : Char → Bool) :
    ∀ f alo blo bhi, matchTotalAux a b pop jnk f alo alo blo bhi = 0 := by
  intro f alo blo bhi
  cases f with
  | zero => rfl
  | succ f =>
    simp only [matchTotalAux]
    rw [findLongestMatch_window_empty]
    simp

theorem matchTotal_self (a : List Char) : matchTotal a a = a.length := by
  unfold matchTotal
  cases hn : a.length with
  | zero => rfl
  | succ m =>
    simp only [matchTotalAux]
    rw [findLongestMatch_self a (popularB a) (m + 1)]
    simp only [Nat.succ_ne_zero, if_false]
    rw [matchTotalAux_window_empty, Nat.zero_add, matchTotalAux_window_empty]

theorem smRatio_self (x : List Char) : smRatio x x = 1 := by
  unfold smRatio
  by_cases hx : x.length = 0
  · rw [if_pos (by omega)]
  · rw [if_neg (by omega), matchTotal_self]
    have h2 : ((x.length + x.length : Nat) : ℚ) = 2 * (x.length : ℚ) := by push_cast; ring
    rw [h2]
    rw [div_self (mul_ne_zero two_ne_zero (Nat.cast_ne_zero.mpr hx))]

theorem ratio_self_one (s : List Char) : _ratio s s = 1 := by
  unfold _ratio
  exact smRatio_self (_norm s)

/-! ### Tokens and Jaccard -/

theorem dropWhile_head_not (p : Char → Bool) :
    ∀ (l : List Char) c t, l.dropWhile p = c :: t → p c = false := by
  intro l
  induction l with
  | nil => intro c t h; cases h
  | cons a l ih =>
    intro c t h
    by_cases hp : p a
    · simp only [List.dropWhile, hp] at h
      exact ih c t h
    · simp only [List.dropWhile, hp] at h
      injection h with h1 h2
      rw [← h1]
      simpa using hp

theorem exists_not_space_of_pyStrip_ne_nil (s : List Char) (h : pyStrip s ≠ []) :
    ∃ c ∈ pyStrip s, isPySpace c = false := by
  unfold pyStrip at h ⊢
  cases hzz : (s.dropWhile isPySpace).reverse.dropWhile isPySpace with
  | nil => rw [hzz] at h; simp at h
  | cons c t =>
    refine ⟨c, ?_, dropWhile_head_not _ _ c t hzz⟩
    simp

theorem splitRunsAux_ne_nil_of_cur (p : Char → Bool) :
    ∀ (s cur : List Char), cur ≠ [] → splitRunsAux p cur s ≠ [] := by
  intro s
  induction s with
  | nil =>
    intro cur hcur
    simp only [splitRunsAux]
    rw [if_neg (by simpa using hcur)]
    simp
  | cons a s ih =>
    intro cur hcur
    simp only [splitRunsAux]
    by_cases hpa : p a
    · rw [if_pos hpa, if_neg (by simpa using hcur)]
      simp
    · rw [if_neg hpa]
      exact ih (a :: cur) (by simp)

theorem splitRunsAux_ne_nil (p : Char → Bool) :
    ∀ (s cur : List Char), (∃ c ∈ s, p c = false) → splitRunsAux p cur s ≠ [] := by
  intro s
  induction s with
  | nil => intro cur ⟨c, hc, _⟩; cases hc
  | cons a s ih =>
    intro cur ⟨c, hc, hpc⟩
    simp only [splitRunsAux]
    by_cases hpa : p a
    · have hcs : c ∈ s := by
        rcases List.mem_cons.mp hc with h | h
        · rw [h] at hpc; rw [hpc] at hpa; cases hpa
        · exact h
      rw [if_pos hpa]
      split
      · exact ih [] ⟨c, hcs, hpc⟩
      · simp
    · rw [if_neg hpa]
      exact splitRunsAux_ne_nil_of_cur p s (a :: cur) (by simp)

theorem tokens_ne_nil (cfg : MatcherConfig) (s : List Char) (h : _norm s ≠ []) :
    _tokens cfg s ≠ [] := by
  have hall : splitWs (_norm s) ≠ [] := by
    obtain ⟨c, hc, hcp⟩ := exists_not_space_of_pyStrip_ne_nil
      (subNonAlnum false (s.map Char.toLower)) h
    exact splitRunsAux_ne_nil isPySpace (_norm s) [] ⟨c, hc, hcp⟩
  simp only [_tokens, pyListOr]
  split
  · intro htake
    rcases (List.take_eq_nil_iff).mp htake with h2 | h2
    · cases h2
    · exact hall h2
  · rename_i hne
    intro heq
    rw [heq] at hne
    simp at hne

theorem jaccard_self_one (T : List (List Char)) (h : T ≠ []) : _jaccard T T = 1 := by
  have hne : T.toFinset ≠ ∅ := by
    intro heq
    exact h ((List.toFinset_eq_empty_iff T).mp heq)
  simp only [_jaccard]
  rw [if_neg (fun hh => hh.elim hne hne), Finset.inter_self, Finset.union_self,
    div_self (Nat.cast_ne_zero.mpr (Finset.card_ne_zero.mpr
      (Finset.nonempty_iff_ne_empty.mpr hne)))]

theorem jaccard_comm (A B : List (List Char)) : _jaccard A B = _jaccard B A := by
  simp only [_jaccard]
  rw [Finset.inter_comm, Finset.union_comm]
  by_cases h : A.toFinset = ∅ ∨ B.toFinset = ∅
  · rw [if_pos h, if_pos (Or.symm h)]
  · rw [if_neg h, if_neg (fun hh => h (Or.symm hh))]

/-! ### Claim theorems: scoring (C3, C4, C9) -/

/-- C3 (amended): for every configuration and every string whose normalised
form is nonempty, the name-matching score of a string against itself is
`1.0`.  (For strings that normalise to the empty string the score is `0.7`:
the character-ratio component of two empty sequences is defined as `1.0`
but the Jaccard component of two empty token sets is `0.0`.) -/
theorem score_self_eq_one (cfg : MatcherConfig) (s : List Char) (h : _norm s ≠ []) :
    _score cfg s s = 1 := by
  unfold _score
  rw [ratio_self_one, jaccard_self_one _ (tokens_ne_nil cfg s h)]
  norm_num

/-- C3 (counterexample): the claim `score(s, s) == 1.0` fails for the empty
string, where the score is `0.7`. -/
theorem score_self_empty_ne_one :
    _score defaultMatcherConfig (chars "") (chars "") ≠ 1 := by
  have hr : _ratio (chars "") (chars "") = 1 := ratio_self_one _
  have ht : _tokens defaultMatcherConfig (chars "") = [] := rfl
  have hj : _jaccard ([] : List (List Char)) [] = 0 := by
    simp only [_jaccard]
    rw [if_pos (Or.inl (by simp))]
  unfold _score
  rw [hr, ht, hj]
  norm_num

/-- C3 (witness). -/
theorem score_self_eq_one_witness :
    _norm (chars "world bank") ≠ [] ∧
      _score defaultMatcherConfig (chars "world bank") (chars "world bank") = 1 :=
  ⟨by decide, score_self_eq_one defaultMatcherConfig (chars "world bank") (by decide)⟩

/-- C4 (amended): the Jaccard component of the score is symmetric, and the
blended score is symmetric whenever the two normalised strings coincide.
(The character-ratio component — `difflib.SequenceMatcher.ratio` — is not
symmetric in general, so neither is the blended score.) -/
theorem score_symm_parts (cfg : MatcherConfig) :
    (∀ a b, _jaccard (_tokens cfg a) (_tokens cfg b) =
      _jaccard (_tokens cfg b) (_tokens cfg a)) ∧
    (∀ a b, _norm a = _norm b → _score cfg a b = _score cfg b a) := by
  constructor
  · intro a b
    exact jaccard_comm _ _
  · intro a b h
    unfold _score _ratio _tokens
    rw [h]

/-- C4 (counterexample): `score("ab", "bacb") = 7/15` but
`score("bacb", "ab") = 7/30` — the score is not symmetric. -/
theorem score_not_symm :
    _score defaultMatcherConfig (chars "ab") (chars "bacb") ≠
      _score defaultMatcherConfig (chars "bacb") (chars "ab") := by
  have hn1 : _norm (chars "ab") = chars "ab" := by decide
  have hn2 : _norm (chars "bacb") = chars "bacb" := by decide
  have hr1 : _ratio (chars "ab") (chars "bacb") = 2/3 := by
    unfold _ratio smRatio
    rw [hn1, hn2]
    rw [show matchTotal (chars "ab") (chars "bacb") = 2 from by decide,
      show (chars "ab").length + (chars "bacb").length = 6 from by decide]
    norm_num
  have hr2 : _ratio (chars "bacb") (chars "ab") = 1/3 := by
    unfold _ratio smRatio
    rw [hn1, hn2]
    rw [show matchTotal (chars "bacb") (chars "ab") = 1 from by decide,
      show (chars "bacb").length + (chars "ab").length = 6 from by decide]
    norm_num
  have ht1 : _tokens defaultMatcherConfig (chars "ab") = [chars "ab"] := by decide
  have ht2 : _tokens defaultMatcherConfig (chars "bacb") = [chars "bacb"] := by decide
  have hj : _jaccard [chars "ab"] [chars "bacb"] = 0 := by
    simp only [_jaccard]
    rw [if_neg (by decide),
      show (([chars "ab"].toFinset : Finset (List Char)) ∩ [chars "bacb"].toFinset).card = 0
        from by decide]
    rw [Nat.cast_zero, zero_div]
  have hj2 : _jaccard [chars "bacb"] [chars "ab"] = 0 := by
    rw [jaccard_comm]
    exact hj
  unfold _score
  rw [hr1, hr2, ht1, ht2, hj, hj2]
  norm_num

/-- C4 (witness): symmetry at two strings with equal normalisations. -/
theorem score_symm_witness :
    _norm (chars "Ab") = _norm (chars "aB") ∧
      _score defaultMatcherConfig (chars "Ab") (chars "aB") =
        _score defaultMatcherConfig (chars "aB") (chars "Ab") :=
  ⟨by decide, (score_symm_parts defaultMatcherConfig).2 _ _ (by decide)⟩

/-- C9 (amended): the tokenizer returns at most `max N 2` tokens — the
fallback branch (taken when no significant token survives the limit) can
return up to two raw tokens even when the configured limit is smaller. -/
theorem tokens_length_le (cfg : MatcherConfig) (name : List Char) :
    (_tokens cfg name).length ≤ max cfg.tokenLimit 2 := by
  simp only [_tokens, pyListOr]
  split
  · exact le_trans (List.length_take_le 2 _) (le_max_right _ _)
  · exact le_trans (List.length_take_le _ _) (le_max_left _ _)

/-- C9 (counterexample): with token limit `0` and the name `"hello world"`,
the tokenizer returns two significant tokens, exceeding the limit. -/
theorem tokens_limit_cex :
    ¬ ((_tokens { defaultMatcherConfig with tokenLimit := 0 } (chars "hello world")).length ≤
        ({ defaultMatcherConfig with tokenLimit := 0 } : MatcherConfig).tokenLimit) := by
  decide

/-! ### Claim theorems: profile-text cap (C2) and lookup emptiness (C1, C10) -/

theorem leadsWith_append_self (p : List Char) : ∀ t, leadsWith p (p ++ t) = true := by
  induction p with
  | nil => intro t; simp [leadsWith]
  | cons c p ih =>
    intro t
    simp only [List.cons_append, leadsWith, beq_self_eq_true, Bool.true_and]
    exact ih t

theorem truncate_length_le (s : List Char) (n : Int) (hn : 12 ≤ n) :
    ((_truncate s n).length : Int) ≤ n := by
  unfold _truncate
  split
  · rename_i h
    exact h
  · rename_i h
    rw [List.length_append, List.length_take]
    have h12 : (chars "\n[TRUNCATED]").length = 12 := by decide
    rw [h12]
    have hmax : ((max 0 (n - 12)).toNat : Int) = max 0 (n - 12) :=
      Int.toNat_of_nonneg (le_max_left 0 _)
    have hmin : min (max 0 (n - 12)).toNat s.length ≤ (max 0 (n - 12)).toNat :=
      min_le_left _ _
    push_cast
    omega

theorem truncate_marker (s : List Char) (n : Int) (h : n < (s.length : Int)) :
    listEndsWith (_truncate s n) (chars "[TRUNCATED]") = true := by
  unfold _truncate
  rw [if_neg (by omega)]
  unfold listEndsWith
  rw [List.reverse_append]
  rw [show (chars "\n[TRUNCATED]").reverse = (chars "[TRUNCATED]").reverse ++ ['\n'] from
    by decide]
  rw [List.append_assoc]
  exact leadsWith_append_self _ _

/-- C2 (amended): whenever the configured cap is at least 12 characters, the
profile-text builder's output length never exceeds the cap; and whenever the
untruncated profile body exceeds the cap, the output ends with the
`[TRUNCATED]` marker.  (For caps below 12 the truncated output is the
12-character string `"\n[TRUNCATED]"`, which exceeds the cap.) -/
theorem build_profile_text_cap (cfg : MatcherConfig) (doc : Doc) :
    (12 ≤ cfg.maxChars → ((_build_profile_text cfg doc).length : Int) ≤ cfg.maxChars) ∧
    (cfg.maxChars < ((_profile_body cfg doc).length : Int) →
      listEndsWith (_build_profile_text cfg doc) (chars "[TRUNCATED]") = true) := by
  constructor
  · intro h
    unfold _build_profile_text
    exact truncate_length_le _ _ h
  · intro h
    unfold _build_profile_text
    exact truncate_marker _ _ h

/-- C2 (counterexample): with the cap configured to 5, a one-field record
renders to the 12-character string `"\n[TRUNCATED]"`, exceeding the cap. -/
theorem build_profile_text_cap_cex :
    ¬ (((_build_profile_text { defaultMatcherConfig with maxChars := 5 }
          [(chars "Donor_Name", Value.vStr (chars "Test Donor"))]).length : Int) ≤
        ({ defaultMatcherConfig with maxChars := 5 } : MatcherConfig).maxChars) := by
  decide

/-- C2 (witness). -/
theorem build_profile_text_cap_witness :
    ((_build_profile_text defaultMatcherConfig
        [(chars "Donor_Name", Value.vStr (chars "Test Donor"))]).length : Int) ≤
      defaultMatcherConfig.maxChars :=
  (build_profile_text_cap defaultMatcherConfig
    [(chars "Donor_Name", Value.vStr (chars "Test Donor"))]).1 (by decide)

/-- C10: when the lookup enable flag is off or the query name is empty, the
lookup returns the empty result, and the result does not depend on the
candidate store (no query is issued). -/
theorem lookup_disabled_or_empty (cfg : MatcherConfig) (container : List Doc)
    (name : List Char) (h : cfg.lookupEnable = false ∨ name = []) :
    lookup_donor_profile_text cfg container name = ([], none) ∧
    ∀ container', lookup_donor_profile_text cfg container name =
      lookup_donor_profile_text cfg container' name := by
  have hb : (!cfg.lookupEnable || name.isEmpty) = true := by
    rcases h with h | h <;> simp [h]
  constructor
  · unfold lookup_donor_profile_text
    rw [if_pos hb]
  · intro c'
    unfold lookup_donor_profile_text
    rw [if_pos hb, if_pos hb]

/-- C10 (witness). -/
theorem lookup_disabled_witness :
    lookup_donor_profile_text { defaultMatcherConfig with lookupEnable := false } []
      (chars "USAID") = ([], none) :=
  (lookup_disabled_or_empty _ _ _ (Or.inl rfl)).1

theorem lookup_best_fold (cfg : MatcherConfig) (name : List Char) :
    ∀ (l : List Doc) (st : ℚ × Option Doc) (bd : Doc),
      (l.foldl (fun (st : ℚ × Option Doc) d =>
        let sc := _score cfg name (candidateName d)
        if st.1 < sc then (sc, some d) else st) st).2 = some bd →
      (st.2 = some bd ∧
        (l.foldl (fun (st : ℚ × Option Doc) d =>
          let sc := _score cfg name (candidateName d)
          if st.1 < sc then (sc, some d) else st) st).1 = st.1) ∨
      (bd ∈ l ∧
        (l.foldl (fun (st : ℚ × Option Doc) d =>
          let sc := _score cfg name (candidateName d)
          if st.1 < sc then (sc, some d) else st) st).1 =
          _score cfg name (candidateName bd)) := by
  intro l
  induction l with
  | nil => intro st bd h; exact Or.inl ⟨h, rfl⟩
  | cons d l ih =>
    intro st bd h
    rw [List.foldl_cons] at h ⊢
    by_cases hup : st.1 < _score cfg name (candidateName d)
    · have hst : (let sc := _score cfg name (candidateName d)
          if st.1 < sc then (sc, some d) else st) =
          ((_score cfg name (candidateName d), some d) : ℚ × Option Doc) := by
        show (if st.1 < _score cfg name (candidateName d)
          then ((_score cfg name (candidateName d), some d) : ℚ × Option Doc) else st) = _
        rw [if_pos hup]
      rw [hst] at h ⊢
      rcases ih _ bd h with ⟨h1, h2⟩ | ⟨h1, h2⟩
      · have hbd : d = bd := by simpa using h1
        exact Or.inr ⟨by simp [← hbd], by rw [h2, ← hbd]⟩
      · exact Or.inr ⟨List.mem_cons_of_mem d h1, h2⟩
    · have hst : (let sc := _score cfg name (candidateName d)
          if st.1 < sc then (sc, some d) else st) = st := by
        show (if st.1 < _score cfg name (candidateName d)
          then ((_score cfg name (candidateName d), some d) : ℚ × Option Doc) else st) = _
        rw [if_neg hup]
      rw [hst] at h ⊢
      rcases ih _ bd h with ⟨h1, h2⟩ | ⟨h1, h2⟩
      · exact Or.inl ⟨h1, h2⟩
      · exact Or.inr ⟨List.mem_cons_of_mem d h1, h2⟩

/-- C1: the lookup returns the empty result when the candidate store yields
no candidates, and also when every candidate scores strictly below the
configured minimum (in particular when the best score does). -/
theorem lookup_empty_cases (cfg : MatcherConfig) (container : List Doc)
    (name : List Char) :
    (_collect_candidates cfg container name = [] →
      lookup_donor_profile_text cfg container name = ([], none)) ∧
    ((∀ d ∈ _collect_candidates cfg container name,
        _score cfg name (candidateName d) < cfg.minScore) →
      lookup_donor_profile_text cfg container name = ([], none)) := by
  constructor
  · intro hc
    simp only [lookup_donor_profile_text]
    split
    · rfl
    · rw [hc]
      simp
  · intro hs
    simp only [lookup_donor_profile_text]
    split
    · rfl
    · by_cases hc : _collect_candidates cfg container name = []
      · rw [hc]
        simp
      · rw [if_neg (by simpa using hc)]
        cases hbd : (List.foldl (fun (st : ℚ × Option Doc) d =>
            let sc := _score cfg name (candidateName d)
            if st.1 < sc then (sc, some d) else st) (-1, none)
            (_collect_candidates cfg container name)).2 with
        | none => rfl
        | some bd =>
          rcases lookup_best_fold cfg name _ _ bd hbd with ⟨h1, -⟩ | ⟨hm, h2⟩
          · cases h1
          · split
            · rfl
            · rename_i bd' hcond
              injection hcond with hbd'
              subst hbd'
              split
              · rfl
              · rename_i hcond2
                exfalso
                apply hcond2
                simp only [Bool.or_eq_true, decide_eq_true_eq]
                right
                exact h2 ▸ hs bd hm

/-- C1 (witness): the empty store yields no candidates and the lookup
returns the empty result. -/
theorem lookup_empty_cases_witness :
    lookup_donor_profile_text defaultMatcherConfig [] (chars "usaid") = ([], none) :=
  (lookup_empty_cases defaultMatcherConfig [] (chars "usaid")).1
    (List.isEmpty_iff.mp (by decide))

/-! ### Claim theorems: identity resolution (C8) -/

theorem dedup_foldl_mem (l : List (List Char)) :
    ∀ (acc : List (List Char)) (x : List Char), x ∈ acc ∨ x ∈ l →
      x ∈ l.foldl (fun acc x => if acc.contains x then acc else acc ++ [x]) acc := by
  induction l with
  | nil =>
    intro acc x h
    rcases h with h | h
    · exact h
    · cases h
  | cons y l ih =>
    intro acc x h
    rw [List.foldl_cons]
    apply ih
    rcases h with h | h
    · left
      split
      · exact h
      · exact List.mem_append_left _ h
    · rcases List.mem_cons.mp h with h | h
      · left
        subst h
        split
        · rename_i hy
          simpa using hy
        · exact List.mem_append_right _ (by simp)
      · right
        exact h

theorem mem_dedupKeepFirst (x : List Char) (l : List (List Char)) (h : x ∈ l) :
    x ∈ dedupKeepFirst l :=
  dedup_foldl_mem l [] x (Or.inr h)

set_option maxHeartbeats 1000000 in
/-- C8: the canonical name returned by `_registry_lookup` is always a member
of the returned synonym list, on both the registry-hit path and the
synthesized-identity path. -/
theorem registry_canonical_mem_synonyms (name : List Char) :
    (_registry_lookup name).1 ∈ (_registry_lookup name).2.1 := by
  simp only [_registry_lookup]
  split
  · exact mem_dedupKeepFirst _ _ (List.mem_cons_self _ _)
  · repeat' split
    all_goals
      first
        | (apply mem_dedupKeepFirst; simp; done)
        | (apply mem_dedupKeepFirst
           refine List.mem_append_left _ (mem_dedupKeepFirst _ _ ?_)
           simp)

/-! ### Claim theorems: query tiers (C5) -/

theorem leadsWith_iff (n : List Char) : ∀ h, leadsWith n h = true ↔ ∃ t, h = n ++ t := by
  induction n with
  | nil =>
    intro h
    simp [leadsWith]
  | cons c ns ih =>
    intro h
    cases h with
    | nil => simp [leadsWith]
    | cons d hs =>
      simp only [leadsWith, Bool.and_eq_true, beq_iff_eq, ih, List.cons_append]
      constructor
      · rintro ⟨rfl, t, rfl⟩
        exact ⟨t, rfl⟩
      · rintro ⟨t, het⟩
        injection het with h1 h2
        exact ⟨h1.symm, t, h2⟩

theorem hasSub_iff (n : List Char) : ∀ h, hasSub h n = true ↔ ∃ p q, h = p ++ n ++ q := by
  intro h
  induction h with
  | nil =>
    simp only [hasSub, List.isEmpty_iff]
    constructor
    · rintro rfl
      exact ⟨[], [], rfl⟩
    · rintro ⟨p, q, hpq⟩
      rcases List.append_eq_nil.mp hpq.symm with ⟨h1, h2⟩
      rcases List.append_eq_nil.mp h1 with ⟨-, h3⟩
      exact h3
  | cons c t ih =>
    simp only [hasSub, Bool.or_eq_true, leadsWith_iff, ih]
    constructor
    · rintro (⟨s, hs⟩ | ⟨p, q, hpq⟩)
      · exact ⟨[], s, by simpa using hs⟩
      · exact ⟨c :: p, q, by simp [hpq]⟩
    · rintro ⟨p, q, hpq⟩
      cases p with
      | nil =>
        left
        exact ⟨q, by simpa using hpq⟩
      | cons c' p' =>
        right
        injection hpq with h1 h2
        exact ⟨p', q, h2⟩

theorem findRegistryHit_mem :
    ∀ (cands : List (List Char)) (canon : List Char) (entry : RegistryEntry),
      findRegistryHit cands = some (canon, entry) →
      entry ∈ DONOR_REGISTRY ∧ entry.canonical = canon := by
  intro cands
  induction cands with
  | nil => intro c e h; cases h
  | cons x cs ih =>
    intro c e h
    simp only [findRegistryHit] at h
    split at h
    · rename_i canon' heq
      cases hre : registryEntry canon' with
      | none => rw [hre] at h; cases h
      | some e' =>
        rw [hre] at h
        simp only [Option.map_some', Option.some.injEq, Prod.mk.injEq] at h
        obtain ⟨hc, he⟩ := h
        have hmem : e' ∈ DONOR_REGISTRY := List.mem_of_find?_eq_some hre
        have hcan : (e'.canonical == canon') = true := by
          have := List.find?_some hre
          simpa using this
        subst he
        exact ⟨hmem, by rw [eq_of_beq hcan, hc]⟩
    · exact ih c e h

theorem registry_lookup_hit_form (name : List Char)
    (h : (_registry_lookup name).2.2 ≠ []) :
    ∃ e ∈ DONOR_REGISTRY, _registry_lookup name =
      (e.canonical, dedupKeepFirst (e.canonical :: e.synonyms), e.domains) := by
  simp only [_registry_lookup] at h ⊢
  generalize hfd : findRegistryHit
    (dedupKeepFirst [_strip_trailing_digits name,
      (_split_paren (_strip_trailing_digits name)).1,
      (_split_paren (_strip_trailing_digits name)).2]) = fd at h ⊢
  cases fd with
  | none => simp at h
  | some pr =>
    obtain ⟨canon, entry⟩ := pr
    obtain ⟨hmem, hcan⟩ := findRegistryHit_mem _ _ _ hfd
    refine ⟨entry, hmem, ?_⟩
    subst hcan
    rfl

theorem getD2_of_four (a b c d : List Char) : ([a, b, c, d].getD 2 []) = c := rfl

theorem getD0_of_four (a b c d : List Char) : ([a, b, c, d].getD 0 []) = a := rfl

set_option maxHeartbeats 2000000 in
set_option maxRecDepth 100000 in
/-- C5: with domain pinning enabled, for a donor resolving to a registry
entry with trusted domains and with theme and region provided, the tier-1
query contains the quoted canonical name, the quoted theme, the quoted
region, and the site-restriction clause; and the tier-3 query never
contains the session's site-restriction clause. -/
theorem query_tiers_site_clause (cfg : ScraperConfig) :
    (∀ name region theme : List Char,
      cfg.domainPinning = true →
      (_registry_lookup name).2.2 ≠ [] → theme ≠ [] → region ≠ [] →
      hasSub ((buildQueries cfg (_registry_lookup name).1 (_registry_lookup name).2.1
          (_registry_lookup name).2.2 region theme).getD 0 [])
        (quoteStr (_registry_lookup name).1) = true ∧
      hasSub ((buildQueries cfg (_registry_lookup name).1 (_registry_lookup name).2.1
          (_registry_lookup name).2.2 region theme).getD 0 [])
        (quoteStr theme) = true ∧
      hasSub ((buildQueries cfg (_registry_lookup name).1 (_registry_lookup name).2.1
          (_registry_lookup name).2.2 region theme).getD 0 [])
        (quoteStr region) = true ∧
      hasSub ((buildQueries cfg (_registry_lookup name).1 (_registry_lookup name).2.1
          (_registry_lookup name).2.2 region theme).getD 0 [])
        (_site_filters cfg (_registry_lookup name).2.2) = true) ∧
    (∀ name region theme : List Char,
      _site_filters cfg (_registry_lookup name).2.2 ≠ [] →
      hasSub ((buildQueries cfg (_registry_lookup name).1 (_registry_lookup name).2.1
          (_registry_lookup name).2.2 region theme).getD 2 [])
        (_site_filters cfg (_registry_lookup name).2.2) = false) := by
  constructor
  · intro name region theme hpin hdom htheme hregion
    have hts : theme.isEmpty = false := by
      cases theme with
      | nil => exact absurd rfl htheme
      | cons c t => rfl
    have hrs : region.isEmpty = false := by
      cases region with
      | nil => exact absurd rfl hregion
      | cons c t => rfl
    simp only [buildQueries, hts, hrs, Bool.false_eq_true, if_false, getD0_of_four,
      joinSep, List.singleton_append, List.cons_append, List.nil_append]
    refine ⟨?_, ?_, ?_, ?_⟩
    · rw [hasSub_iff]
      exact ⟨[], chars " " ++ (quoteStr theme ++ (chars " " ++ (quoteStr region ++
        (chars " " ++ kwCore)))) ++ _site_filters cfg (_registry_lookup name).2.2,
        by simp⟩
    · rw [hasSub_iff]
      exact ⟨quoteStr (_registry_lookup name).1 ++ chars " ",
        chars " " ++ (quoteStr region ++ (chars " " ++ kwCore)) ++
          _site_filters cfg (_registry_lookup name).2.2,
        by simp⟩
    · rw [hasSub_iff]
      exact ⟨quoteStr (_registry_lookup name).1 ++ (chars " " ++ (quoteStr theme ++
        chars " ")),
        chars " " ++ kwCore ++ _site_filters cfg (_registry_lookup name).2.2,
        by simp⟩
    · rw [hasSub_iff]
      exact ⟨quoteStr (_registry_lookup name).1 ++ (chars " " ++ (quoteStr theme ++
        (chars " " ++ (quoteStr region ++ (chars " " ++ kwCore))))),
        [], by simp⟩
  · intro name region theme hclause
    have hdom : (_registry_lookup name).2.2 ≠ [] := by
      intro h0
      apply hclause
      rw [h0]
      simp [_site_filters]
    obtain ⟨e, hmem, heq⟩ := registry_lookup_hit_form name hdom
    rw [heq] at hclause ⊢
    by_cases hpin : cfg.domainPinning
    · simp only [buildQueries, getD2_of_four]
      have hsf : _site_filters cfg (e.canonical, dedupKeepFirst (e.canonical :: e.synonyms),
          e.domains).2.2 = _site_filters { defaultScraperConfig with domainPinning := true }
          e.domains := by
        simp [_site_filters, hpin]
      rw [hsf]
      simp only [DONOR_REGISTRY, List.mem_cons, List.not_mem_nil, or_false] at hmem
      rcases hmem with rfl | rfl | rfl | rfl | rfl | rfl | rfl
      all_goals decide
    · exact absurd (by simp [_site_filters, hpin]) hclause

set_option maxRecDepth 100000 in
theorem query_tiers_site_clause_witness :
    defaultScraperConfig.domainPinning = true ∧
    (_registry_lookup (chars "World Bank")).2.2 ≠ [] ∧
    chars "migration" ≠ [] ∧ chars "Africa" ≠ [] ∧
    _site_filters defaultScraperConfig (_registry_lookup (chars "World Bank")).2.2 ≠ [] ∧
    (hasSub ((buildQueries defaultScraperConfig (_registry_lookup (chars "World Bank")).1
        (_registry_lookup (chars "World Bank")).2.1 (_registry_lookup (chars "World Bank")).2.2
        (chars "Africa") (chars "migration")).getD 0 [])
      (quoteStr (_registry_lookup (chars "World Bank")).1) = true ∧
     hasSub ((buildQueries defaultScraperConfig (_registry_lookup (chars "World Bank")).1
        (_registry_lookup (chars "World Bank")).2.1 (_registry_lookup (chars "World Bank")).2.2
        (chars "Africa") (chars "migration")).getD 0 [])
      (quoteStr (chars "migration")) = true ∧
     hasSub ((buildQueries defaultScraperConfig (_registry_lookup (chars "World Bank")).1
        (_registry_lookup (chars "World Bank")).2.1 (_registry_lookup (chars "World Bank")).2.2
        (chars "Africa") (chars "migration")).getD 0 [])
      (quoteStr (chars "Africa")) = true ∧
     hasSub ((buildQueries defaultScraperConfig (_registry_lookup (chars "World Bank")).1
        (_registry_lookup (chars "World Bank")).2.1 (_registry_lookup (chars "World Bank")).2.2
        (chars "Africa") (chars "migration")).getD 0 [])
      (_site_filters defaultScraperConfig (_registry_lookup (chars "World Bank")).2.2) = true) ∧
    hasSub ((buildQueries defaultScraperConfig (_registry_lookup (chars "World Bank")).1
        (_registry_lookup (chars "World Bank")).2.1 (_registry_lookup (chars "World Bank")).2.2
        (chars "Africa") (chars "migration")).getD 2 [])
      (_site_filters defaultScraperConfig (_registry_lookup (chars "World Bank")).2.2) = false :=
  ⟨rfl, by decide, by decide, by decide, by decide,
   (query_tiers_site_clause defaultScraperConfig).1 (chars "World Bank") (chars "Africa")
     (chars "migration") rfl (by decide) (by decide) (by decide),
   (query_tiers_site_clause defaultScraperConfig).2 (chars "World Bank") (chars "Africa")
     (chars "migration") (by decide)⟩

theorem hitStep_dedupInv (cfg : ScraperConfig) (fetch : List Char → List Char)
    (synonyms off_topic reg_domains : List (List Char)) (canonical now : List Char)
    (st : List SearchResult × List (List Char)) (r : Hit) (h : dedupInv st) :
    dedupInv (hitStep cfg fetch synonyms off_topic reg_domains canonical now st r) := by
  obtain ⟨h1, h2⟩ := h
  simp only [hitStep]
  split
  · exact ⟨h1, h2⟩
  split
  · exact ⟨h1, h2⟩
  rename_i hseen
  split
  · exact ⟨h1, h2⟩
  split
  · exact ⟨h1, h2⟩
  split
  · exact ⟨h1, h2⟩
  split
  · exact ⟨h1, h2⟩
  simp only [dedupInv]
  constructor
  · intro x hx
    rcases List.mem_append.mp hx with hx | hx
    · exact List.mem_append_left _ (h1 x hx)
    · rw [List.mem_singleton] at hx
      subst hx
      exact List.mem_append_right _ (List.mem_singleton_self _)
  · rw [List.pairwise_append]
    refine ⟨h2, List.pairwise_singleton _ _, ?_⟩
    intro x hx y hy
    rw [List.mem_singleton] at hy
    subst hy
    intro heq
    apply hseen
    exact List.elem_iff.mpr (heq ▸ h1 x hx)

theorem tierLoop_dedupInv (cfg : ScraperConfig) (fetch : List Char → List Char)
    (synonyms off_topic reg_domains : List (List Char)) (canonical now : List Char)
    (max_results : Nat) (hits : List Hit) :
    ∀ st, dedupInv st →
      dedupInv (tierLoop cfg fetch synonyms off_topic reg_domains canonical now
        max_results hits st) := by
  induction hits with
  | nil => intro st h; exact h
  | cons r rest ih =>
    intro st h
    simp only [tierLoop]
    split
    · exact hitStep_dedupInv cfg fetch synonyms off_topic reg_domains canonical now st r h
    · exact ih _ (hitStep_dedupInv cfg fetch synonyms off_topic reg_domains canonical now st r h)

theorem searchLoop_dedupInv (cfg : ScraperConfig)
    (provider : List Char → Nat → Except (List Char) (List Hit))
    (fetch : List Char → List Char)
    (synonyms off_topic reg_domains : List (List Char)) (canonical now : List Char)
    (max_results : Nat) (qs : List (List Char)) :
    ∀ st, dedupInv st →
      dedupInv (searchLoop cfg provider fetch synonyms off_topic reg_domains canonical now
        max_results qs st) := by
  induction qs with
  | nil => intro st h; exact h
  | cons q rest ih =>
    intro st h
    simp only [searchLoop]
    split
    · exact h
    split
    · exact ih _ h
    · exact ih _ (tierLoop_dedupInv cfg fetch synonyms off_topic reg_domains canonical now
        max_results _ st h)

/-- C6: within one search session, results are deduplicated by URL with
the fragment stripped: the normalized URLs of the results returned by
`search_donor_articles` are pairwise distinct. -/
theorem search_results_dedup (cfg : ScraperConfig)
    (provider : List Char → Nat → Except (List Char) (List Hit))
    (fetch : List Char → List Char) (now : List Char)
    (donor_name region theme : List Char) (max_results : Nat) :
    List.Pairwise (fun r1 r2 => normUrl r1.url ≠ normUrl r2.url)
      (search_donor_articles cfg provider fetch now donor_name region theme max_results) := by
  simp only [search_donor_articles]
  exact (searchLoop_dedupInv cfg provider fetch _ _ _ _ now max_results _ ([], [])
    ⟨fun x hx => absurd hx (List.not_mem_nil x), List.Pairwise.nil⟩).2

/-- C7: in the per-result post-filter, a non-pinned hit is accepted only
if some synonym appears as a whole-word match in the fetched body or in
the title; a pinned hit that reaches the post-filter (nonempty unseen URL,
pre-filter passed, no off-topic text in the pre-blob) is accepted exactly
when no off-topic name occurs in the fetched body — whatever the body is,
including sparse or fetch-error strings. -/
theorem hitStep_post_filter (cfg : ScraperConfig) (fetch : List Char → List Char)
    (synonyms off_topic reg_domains : List (List Char)) (canonical now : List Char)
    (st : List SearchResult × List (List Char)) (r : Hit) :
    ((reg_domains.any fun d =>
        listEndsWith (_domain_of (pyOrStrs [r.href, r.url, r.link])) d) = false →
      (hitStep cfg fetch synonyms off_topic reg_domains canonical now st r).1.length =
        st.1.length + 1 →
      _contains_any_word (fetch (pyOrStrs [r.href, r.url, r.link])) synonyms = true ∨
      _contains_any_word (pyStrip (r.title.getD [])) synonyms = true) ∧
    ((reg_domains.any fun d =>
        listEndsWith (_domain_of (pyOrStrs [r.href, r.url, r.link])) d) = true →
      (pyOrStrs [r.href, r.url, r.link]).isEmpty = false →
      st.2.contains (normUrl (pyOrStrs [r.href, r.url, r.link])) = false →
      (((!reg_domains.any fun d =>
          listEndsWith (_domain_of (pyOrStrs [r.href, r.url, r.link])) d) ||
         !cfg.disablePrefilterForPinned) &&
        !_contains_any_word
          (pyStrip (r.title.getD []) ++ chars " " ++ pyStrip (pyOrStrs [r.body, r.snippet]) ++
            chars " " ++ pyOrStrs [r.href, r.url, r.link]) synonyms) = false →
      _contains_any_text
        (pyStrip (r.title.getD []) ++ chars " " ++ pyStrip (pyOrStrs [r.body, r.snippet]) ++
          chars " " ++ pyOrStrs [r.href, r.url, r.link]) off_topic = false →
      ((hitStep cfg fetch synonyms off_topic reg_domains canonical now st r).1.length =
          st.1.length + 1 ↔
        _contains_any_text (fetch (pyOrStrs [r.href, r.url, r.link])) off_topic = false)) := by
  constructor
  · intro hpin hlen
    simp only [hitStep] at hlen
    split at hlen
    · omega
    split at hlen
    · omega
    split at hlen
    · omega
    split at hlen
    · omega
    split at hlen
    · omega
    rename_i hpost
    split at hlen
    · omega
    · rw [hpin] at hpost
      cases hA : _contains_any_word (fetch (pyOrStrs [r.href, r.url, r.link])) synonyms with
      | true => exact Or.inl rfl
      | false =>
        cases hB : _contains_any_word (pyStrip (r.title.getD [])) synonyms with
        | true => exact Or.inr rfl
        | false =>
          rw [hA, hB] at hpost
          exact absurd rfl hpost
  · intro hpin hurl hseen hpre hofft
    simp only [hitStep, hurl, hseen, hpre, hofft, Bool.false_eq_true, if_false]
    simp only [hpin, Bool.not_true, Bool.false_and, Bool.true_and, Bool.false_eq_true,
      if_false]
    cases hb : _contains_any_text (fetch (pyOrStrs [r.href, r.url, r.link])) off_topic with
    | false =>
      rw [if_neg Bool.false_ne_true]
      simp
    | true =>
      rw [if_pos rfl]
      constructor
      · intro h0; omega
      · intro h0; simp at h0

set_option maxRecDepth 100000 in
theorem hitStep_post_filter_witness :
    (_contains_any_word (chars "USAID annual report") [chars "USAID"] = true ∨
     _contains_any_word (pyStrip (chars "USAID strategy")) [chars "USAID"] = true) ∧
    ((hitStep defaultScraperConfig (fun _ => chars "[SCRAPE_ERROR] timeout")
        [chars "USAID"] [chars "World Bank"] [chars "usaid.gov"]
        (chars "USAID") (chars "2026-01-01") ([], [])
        ⟨some (chars "https://www.usaid.gov/news/x#frag"), none, none,
          some (chars "Some page"), some (chars "usaid snippet"), none, none⟩).1.length = 1 ↔
      _contains_any_text (chars "[SCRAPE_ERROR] timeout") [chars "World Bank"] = false) :=
  ⟨(hitStep_post_filter defaultScraperConfig (fun _ => chars "USAID annual report")
      [chars "USAID"] [] [] (chars "USAID") (chars "2026-01-01") ([], [])
      ⟨some (chars "https://example.org/a"), none, none,
        some (chars "USAID strategy"), some (chars "USAID plans"), none, none⟩).1
    (by decide) (by decide),
   (hitStep_post_filter defaultScraperConfig (fun _ => chars "[SCRAPE_ERROR] timeout")
      [chars "USAID"] [chars "World Bank"] [chars "usaid.gov"]
      (chars "USAID") (chars "2026-01-01") ([], [])
      ⟨some (chars "https://www.usaid.gov/news/x#frag"), none, none,
        some (chars "Some page"), some (chars "usaid snippet"), none, none⟩).2
    (by decide) (by decide) (by decide) (by decide) (by decide)⟩
